import Mathlib

/-!
# Trade settlement in the trading-simulation backend

A shallow embedding of `controllers/PlayerController.js` (`signUp`, `joinGame`, `buyStock`,
`sellStock`, `getStockPrice`, `getLeaderboard`, `calculatePortfolioValue`) and of
`controllers/AdminController.js` (`createGame`, `editStartingTime`, `editStartingAmount`,
`declareWinner`, `calculatePortfolioValue`) over the document shapes of `models/Player.js` and
`models/Game.js`.

Modelling conventions.

* A JavaScript `Number` in a portfolio or a trade is an exact rational (`ℚ`); rounding, `NaN`
  and the infinities are outside the model of the trades. The `quantity` argument of a trade
  is such a number. The theorems state the expressions and comparisons of the source as the
  source writes them; identities that hold only in exact arithmetic are not claimed.
* `Player.findById` / `player.save()` are a lookup and an overwrite in an explicit list of
  player documents; a failed trade returns the list it was given.
* `getStockPrice(symbol)` is a network call; its outcome for the current call is the field
  `Env.quote` (a rejection carries the message of the rejected error).
* `push` on a Mongoose document array casts its argument into a fresh sub-document, so the
  object pushed to `portfolioHistory` is a copy of the holdings and cash at the time of the
  push. Lists are values, which is this behaviour.
-/

namespace TradingServer

/-- One element of `portfolio.holdings` in `playerSchema`. -/
structure Holding where
  stockSymbol : String
  quantity : ℚ
  stockPrice : ℚ
deriving DecidableEq, Repr

/-- The `portfolio` sub-document of a player. -/
structure Portfolio where
  holdings : List Holding
  cash : ℚ
deriving DecidableEq, Repr

/-- One element of `portfolioHistory`; the controllers never set its `timestamp`. -/
structure Snapshot where
  holdings : List Holding
  cash : ℚ
deriving DecidableEq, Repr

/-- The `enum: ['buy', 'sell']` of `transactionSchema.type`. -/
inductive TradeType where
  | buy
  | sell
deriving DecidableEq, Repr

/-- A document of `transactionSchema`. -/
structure Transaction where
  type : TradeType
  date : Nat
  stockPrice : ℚ
  playerUsername : String
  stockName : String
  cost : ℚ
deriving DecidableEq, Repr

/-- A document of `playerSchema`. -/
structure Player where
  _id : String
  username : String
  email : String
  password : String
  fullName : String
  portfolio : Portfolio
  portfolioHistory : List Snapshot
  transactions : List Transaction
  active : Bool
  watchlist : List String
  notifications : List String
  gamesWon : Nat
deriving DecidableEq, Repr

/-- What one call observes of the outside world: the outcome of `getStockPrice(symbol)` and the
value of `new Date()`. -/
structure Env where
  quote : String → Except String ℚ
  now : Nat

/-- The object a trade resolves with: `{ success: true }` or `{ success: false, error }`. -/
structure TradeResult where
  success : Bool
  error : Option String
deriving DecidableEq, Repr

/-- `Player.findById(playerId)`: the stored document with that `_id`, if any. -/
def findById (db : List Player) (playerId : String) : Option Player :=
  db.find? (fun p => p._id == playerId)

/-- `player.save()`: the stored document with the same `_id` is overwritten. -/
def save (db : List Player) (player : Player) : List Player :=
  db.map (fun p => if p._id == player._id then player else p)

/-- `Array.prototype.findIndex`: the index of the first element satisfying `p`; `none` stands
for the result `-1`. -/
def findIndex {α : Type} (p : α → Bool) : List α → Option Nat
  | [] => none
  | x :: xs => if p x then some 0 else (findIndex p xs).map (fun i => i + 1)

/-- An in-place update `xs[i] = f(xs[i])`. -/
def updateAt {α : Type} (f : α → α) : List α → Nat → List α
  | [], _ => []
  | x :: xs, 0 => f x :: xs
  | x :: xs, i + 1 => x :: updateAt f xs i

/-- `holdings.findIndex(holding => holding.stockSymbol === stockSymbol)`. -/
def holdingIndex (holdings : List Holding) (stockSymbol : String) : Option Nat :=
  findIndex (fun holding => holding.stockSymbol == stockSymbol) holdings

/-- Lines 193-199 of `buyStock`: the holdings after a buy. -/
def buyHoldings (holdings : List Holding) (stockSymbol : String) (quantity stockPrice : ℚ) :
    List Holding :=
  match holdingIndex holdings stockSymbol with
  | some existingHoldingsIndex =>
    updateAt (fun h => { h with quantity := h.quantity + quantity }) holdings
      existingHoldingsIndex
  | none => holdings ++ [{ stockSymbol := stockSymbol, quantity := quantity,
                           stockPrice := stockPrice }]

/-- Lines 189-208 of `buyStock`: the mutations applied to the player document once every check
has passed. -/
def buyCommit (player : Player) (stockSymbol : String) (quantity stockPrice : ℚ) (now : Nat) :
    Player :=
  let totalPrice := stockPrice * quantity
  { player with
    portfolioHistory := player.portfolioHistory ++
      [{ holdings := player.portfolio.holdings, cash := player.portfolio.cash }]
    portfolio :=
      { holdings := buyHoldings player.portfolio.holdings stockSymbol quantity stockPrice
        cash := player.portfolio.cash - 1 - totalPrice }
    transactions := player.transactions ++
      [{ type := TradeType.buy, date := now, stockPrice := stockPrice,
         playerUsername := player.username, stockName := stockSymbol, cost := totalPrice }] }

/-- The function `buyStock(playerId, stockSymbol, quantity)`. -/
def buyStock (env : Env) (db : List Player) (playerId stockSymbol : String) (quantity : ℚ) :
    List Player × TradeResult :=
  match env.quote stockSymbol with
  | .error message => (db, { success := false, error := some message })
  | .ok stockPrice =>
    match findById db playerId with
    | none => (db, { success := false, error := some "Player not found" })
    | some player =>
      if !player.active then
        (db, { success := false, error := some "Player is not active" })
      else if player.portfolio.cash < stockPrice * quantity + 1 then
        (db, { success := false, error := some "Insufficient funds" })
      else
        (save db (buyCommit player stockSymbol quantity stockPrice env.now),
          { success := true, error := none })

/-- Lines 244-248 of `sellStock`: the holdings after a sell at index `holdingIndex`. -/
def sellHoldings (holdings : List Holding) (index : Nat) (quantity : ℚ) : List Holding :=
  let decremented := updateAt (fun h => { h with quantity := h.quantity - quantity }) holdings
    index
  match decremented[index]? with
  | some h => if h.quantity = 0 then decremented.eraseIdx index else decremented
  | none => decremented

/-- Lines 236-257 of `sellStock`: the mutations applied to the player document once every check
has passed. -/
def sellCommit (player : Player) (stockSymbol : String) (index : Nat)
    (quantity stockPrice : ℚ) (now : Nat) : Player :=
  let totalPrice := stockPrice * quantity
  { player with
    portfolioHistory := player.portfolioHistory ++
      [{ holdings := player.portfolio.holdings, cash := player.portfolio.cash }]
    portfolio :=
      { holdings := sellHoldings player.portfolio.holdings index quantity
        cash := player.portfolio.cash - 1 + totalPrice }
    transactions := player.transactions ++
      [{ type := TradeType.sell, date := now, stockPrice := stockPrice,
         playerUsername := player.username, stockName := stockSymbol, cost := totalPrice }] }

/-- The function `sellStock(playerId, stockSymbol, quantity)`. An index returned by
`findIndex` is that of an element, so `holdings[holdingIndex]` is defined; the `none` arm is
the `TypeError` that reading `.quantity` of `undefined` would raise, and is never taken. -/
def sellStock (env : Env) (db : List Player) (playerId stockSymbol : String) (quantity : ℚ) :
    List Player × TradeResult :=
  match env.quote stockSymbol with
  | .error message => (db, { success := false, error := some message })
  | .ok stockPrice =>
    match findById db playerId with
    | none => (db, { success := false, error := some "Player not found" })
    | some player =>
      if !player.active then
        (db, { success := false, error := some "Player is not active" })
      else
        match holdingIndex player.portfolio.holdings stockSymbol with
        | none => (db, { success := false, error := some "Insufficient holdings" })
        | some index =>
          match player.portfolio.holdings[index]? with
          | none => (db, { success := false, error := some "Cannot read properties of undefined" })
          | some holding =>
            if holding.quantity < quantity then
              (db, { success := false, error := some "Insufficient holdings" })
            else
              (save db (sellCommit player stockSymbol index quantity stockPrice env.now),
                { success := true, error := none })

/-! ## Games, valuation and the request handlers

Dates are milliseconds since the epoch. A handler returns the store after the call and the
response it sent. Every lookup and save is taken to complete; a handler only answers 500 where
its own code throws.
-/

/-- A document of `gameSchema` (models/Game.js). -/
structure Game where
  _id : String
  startingTime : Nat
  endTime : Nat
  players : List String
  startingAmount : ℚ
deriving DecidableEq, Repr

/-- The two collections the controllers read and write. -/
structure Store where
  players : List Player
  games : List Game
deriving DecidableEq, Repr

/-- The JSON bodies the handlers send. -/
inductive Body where
  | message (message : String)
  | error (error : String)
  | leaderboard (usernames : List String)
  | winner (message : String) (winner : String)
  | game (message : String) (game : Game)
deriving DecidableEq, Repr

/-- The call `res.status(status).json(body)`. -/
structure Response where
  status : Nat
  body : Body
deriving DecidableEq, Repr

/-- `Game.findById(gameId)`: the stored game with that `_id`, if any. -/
def findGameById (games : List Game) (gameId : String) : Option Game :=
  games.find? (fun g => g._id == gameId)

/-- `game.save()`: the stored game with the same `_id` is overwritten. -/
def saveGame (games : List Game) (game : Game) : List Game :=
  games.map (fun g => if g._id == game._id then game else g)

/-- The function `calculatePortfolioValue` of PlayerController.js (lines 318-324). -/
def PlayerController.calculatePortfolioValue (portfolio : Portfolio) : ℚ :=
  portfolio.holdings.foldl
    (fun totalValue holding => totalValue + holding.quantity * holding.stockPrice)
    portfolio.cash

/-- The function `calculatePortfolioValue` of AdminController.js (lines 195-201). -/
def AdminController.calculatePortfolioValue (portfolio : Portfolio) : ℚ :=
  portfolio.holdings.foldl
    (fun totalValue holding => totalValue + holding.quantity * holding.stockPrice)
    portfolio.cash

/-- The handler `joinGame` (PlayerController.js, lines 63-105). `dateText` renders the date
interpolated into the notification. -/
def joinGame (now : Nat) (dateText : Nat → String) (store : Store)
    (playerId gameId : String) : Store × Response :=
  match findById store.players playerId with
  | none => (store, { status := 404, body := .error "Player not found" })
  | some player =>
    if player.active then
      (store, { status := 400, body := .error "Player is already in a game" })
    else
      match findGameById store.games gameId with
      | none => (store, { status := 404, body := .error "Game not found" })
      | some game =>
        if game.endTime ≤ now then
          (store, { status := 400, body := .error "Game has already ended" })
        else
          ({ players := save store.players
               { player with
                 portfolio := { holdings := [], cash := game.startingAmount }
                 transactions := []
                 portfolioHistory := []
                 active := true
                 notifications := player.notifications ++
                   ["You have joined a game ending on: " ++ dateText game.endTime] }
             games := saveGame store.games { game with players := game.players ++ [playerId] } },
            { status := 200, body := .message "Player joined the game successfully" })

/-- An element of `playerDetails` in `getLeaderboard`. -/
structure PlayerDetail where
  username : String
  portfolioValue : ℚ
deriving DecidableEq, Repr

/-- Lines 298-305 of `getLeaderboard`: one detail per element of `game.players`, in order. -/
def playerDetails (players : List Player) (ids : List String) : List PlayerDetail :=
  ids.map (fun playerId =>
    match findById players playerId with
    | none => { username := "Unknown", portfolioValue := 0 }
    | some player =>
      { username := player.username
        portfolioValue := PlayerController.calculatePortfolioValue player.portfolio })

/-- The comparator `(a, b) => b.portfolioValue - a.portfolioValue` is not positive: `a` may
stand before `b`. -/
def ranksBefore (a b : PlayerDetail) : Prop :=
  b.portfolioValue ≤ a.portfolioValue

instance ranksBefore_decidable : DecidableRel ranksBefore :=
  fun a b => inferInstanceAs (Decidable (b.portfolioValue ≤ a.portfolioValue))

instance ranksBefore_total : IsTotal PlayerDetail ranksBefore :=
  ⟨fun a b => le_total b.portfolioValue a.portfolioValue⟩

instance ranksBefore_trans : IsTrans PlayerDetail ranksBefore :=
  ⟨fun _ _ _ hab hbc => le_trans hbc hab⟩

/-- Line 307, `playerDetails.sort(comparator)`: `Array.prototype.sort` is stable and the
comparator is a total preorder, which fixes the result; insertion sort computes it. -/
def sortDetails (details : List PlayerDetail) : List PlayerDetail :=
  details.insertionSort ranksBefore

/-- The handler `getLeaderboard` (PlayerController.js, lines 289-316). -/
def getLeaderboard (store : Store) (gameId : String) : Response :=
  match findGameById store.games gameId with
  | none => { status := 404, body := .error "Game not found" }
  | some game =>
    { status := 200
      body := .leaderboard
        ((sortDetails (playerDetails store.players game.players)).map (fun d => d.username)) }

/-- The call `.populate('players', 'username portfolio')`: the referenced player documents in
the order of the ids; an id without a document leaves no element. -/
def populate (players : List Player) (ids : List String) : List Player :=
  ids.filterMap (fun playerId => findById players playerId)

/-- An element of `playerPortfolioValues` in `declareWinner`. -/
structure PlayerPortfolioValue where
  playerId : String
  username : String
  portfolioValue : ℚ
deriving DecidableEq, Repr

/-- The variables `winner` and `maxPortfolioValue` of `declareWinner`; `none` stands for
`null` and for `-Infinity`. -/
structure WinnerScan where
  winner : Option (String × String)
  maxPortfolioValue : Option ℚ
deriving DecidableEq, Repr

/-- The test `portfolioValue > maxPortfolioValue`. -/
def exceeds (portfolioValue : ℚ) : Option ℚ → Bool
  | none => true
  | some maxPortfolioValue => decide (maxPortfolioValue < portfolioValue)

/-- One round of the `forEach` of lines 178-183. -/
def scanStep (scan : WinnerScan) (entry : PlayerPortfolioValue) : WinnerScan :=
  if exceeds entry.portfolioValue scan.maxPortfolioValue then
    { winner := some (entry.playerId, entry.username)
      maxPortfolioValue := some entry.portfolioValue }
  else scan

/-- Lines 171-174 of `declareWinner`. -/
def playerPortfolioValues (participants : List Player) : List PlayerPortfolioValue :=
  participants.map (fun player =>
    { playerId := player._id, username := player.username
      portfolioValue := AdminController.calculatePortfolioValue player.portfolio })

/-- Lines 176-183 of `declareWinner`. -/
def scanWinner (entries : List PlayerPortfolioValue) : WinnerScan :=
  entries.foldl scanStep { winner := none, maxPortfolioValue := none }

/-- The handler `declareWinner` (AdminController.js, lines 156-193). With `winner` still
`null`, reading `winner.playerId` throws and the handler answers 500. `winner` is not a path
of `gameSchema`: line 185 sets a property of the document in memory, and `game.save()` at
line 186 finds no path of the schema changed, so the store is the one given. -/
def declareWinner (now : Nat) (store : Store) (gameId : String) : Store × Response :=
  match findGameById store.games gameId with
  | none => (store, { status := 404, body := .error "Game not found" })
  | some game =>
    if now < game.endTime then
      (store, { status := 400, body := .error "Game has not ended yet" })
    else
      match (scanWinner (playerPortfolioValues (populate store.players game.players))).winner with
      | none => (store, { status := 500, body := .error "Internal Server Error" })
      | some (_, username) =>
        (store, { status := 200, body := .winner "Winner declared successfully" username })

/-- The handler `editStartingTime` (AdminController.js, lines 82-111). `startingTime` is the
value of `new Date(req.body.startingTime)`, `none` for an invalid date: an invalid date
compares false with every date and cannot be saved in a `Date` path, so the save throws. -/
def editStartingTime (now : Nat) (store : Store) (gameId : String)
    (startingTime : Option Nat) : Store × Response :=
  match findGameById store.games gameId with
  | none => (store, { status := 404, body := .error "Game not found" })
  | some game =>
    if game.startingTime ≤ now then
      (store,
        { status := 400
          body := .error "Cannot edit starting time because the game has already started" })
    else
      match startingTime with
      | none => (store, { status := 500, body := .error "Internal Server Error" })
      | some newStartingTime =>
        if newStartingTime ≤ now then
          (store, { status := 400, body := .error "New starting time cannot be in the past" })
        else
          ({ store with
              games := saveGame store.games { game with startingTime := newStartingTime } },
            { status := 200
              body := .game "Starting time updated successfully"
                { game with startingTime := newStartingTime } })

/-- The handler `editStartingAmount` (AdminController.js, lines 114-138), for a numeric
`req.body.startingAmount`. -/
def editStartingAmount (now : Nat) (store : Store) (gameId : String) (startingAmount : ℚ) :
    Store × Response :=
  match findGameById store.games gameId with
  | none => (store, { status := 404, body := .error "Game not found" })
  | some game =>
    if game.startingTime ≤ now then
      (store,
        { status := 400
          body := .error "Cannot edit starting amount because the game has already started" })
    else
      ({ store with
          games := saveGame store.games { game with startingAmount := startingAmount } },
        { status := 200
          body := .game "Starting amount updated successfully"
            { game with startingAmount := startingAmount } })

/-! ## Registration, game creation and sequences of operations -/

/-- The handler `signUp` (PlayerController.js, lines 6-38). `newId` is the `_id` given to the
new document and `hashedPassword` the result of `bcrypt.hash`. The object given for
`portfolioHistory` is cast to an array of one element. -/
def signUp (store : Store) (newId username hashedPassword email : String) : Store × Response :=
  if store.players.any (fun p => p.username == username || p.email == email) then
    (store, { status := 400, body := .error "Username or email already exists" })
  else
    ({ store with
        players := store.players ++
          [{ _id := newId, username := username, email := email, password := hashedPassword,
             fullName := "", portfolio := { holdings := [], cash := 1000 },
             portfolioHistory := [{ holdings := [], cash := 0 }], transactions := [],
             active := false, watchlist := [], notifications := [], gamesWon := 0 }] },
      { status := 201, body := .message "Player registered successfully" })

/-- The handler `createGame` (AdminController.js, lines 56-80). `newId` is the `_id` given to
the new game and `startingTimeText` the text of `req.body.startingTime`; every stored player
is notified. -/
def createGame (store : Store) (newId startingTimeText : String) (startingTime endTime : Nat)
    (startingAmount : ℚ) : Store × Response :=
  ({ players := store.players.map (fun player =>
       { player with
         notifications := player.notifications ++
           ["A new game has been created with starting time: " ++ startingTimeText] })
     games := store.games ++
       [{ _id := newId, startingTime := startingTime, endTime := endTime, players := [],
          startingAmount := startingAmount }] },
    { status := 201
      body := .game "Game created successfully"
        { _id := newId, startingTime := startingTime, endTime := endTime, players := [],
          startingAmount := startingAmount } })

/-- One call of a controller operation, with what it reads from the request and observes of
the outside world. -/
inductive Op where
  | signUp (newId username hashedPassword email : String)
  | joinGame (now : Nat) (playerId gameId : String)
  | buyStock (env : Env) (playerId stockSymbol : String) (quantity : ℚ)
  | sellStock (env : Env) (playerId stockSymbol : String) (quantity : ℚ)
  | createGame (newId startingTimeText : String) (startingTime endTime : Nat)
      (startingAmount : ℚ)
  | declareWinner (now : Nat) (gameId : String)

/-- The store after one operation. -/
def step (dateText : Nat → String) (store : Store) : Op → Store
  | .signUp newId username hashedPassword email =>
    (signUp store newId username hashedPassword email).1
  | .joinGame now playerId gameId => (joinGame now dateText store playerId gameId).1
  | .buyStock env playerId stockSymbol quantity =>
    { store with players := (buyStock env store.players playerId stockSymbol quantity).1 }
  | .sellStock env playerId stockSymbol quantity =>
    { store with players := (sellStock env store.players playerId stockSymbol quantity).1 }
  | .createGame newId startingTimeText startingTime endTime startingAmount =>
    (createGame store newId startingTimeText startingTime endTime startingAmount).1
  | .declareWinner now gameId => (declareWinner now store gameId).1

/-- The store after a sequence of operations. -/
def run (dateText : Nat → String) (store : Store) (ops : List Op) : Store :=
  ops.foldl (step dateText) store

/-- The player with this id is stored and active. -/
def ActiveIn (store : Store) (playerId : String) : Prop :=
  ∃ p, findById store.players playerId = some p ∧ p.active = true

/-! ## The quote source

`getStockPrice` is embedded over what the callback of `request.get` receives. A trade awaits
its promise: `Env.quote` is `.ok q` when the promise resolves with the finite number `q` and
`.error message` when it rejects with an error of that message.
-/

/-- A number as JavaScript has it: `NaN`, an infinity, or a finite value, which is taken
exactly. -/
inductive JsNumber where
  | nan
  | infinity (negative : Bool)
  | finite (value : ℚ)
deriving DecidableEq, Repr

/-- A value read by `JSON.parse`. -/
inductive JsonValue where
  | null
  | bool (value : Bool)
  | number (value : ℚ)
  | string (value : String)
  | array (items : List JsonValue)
  | object (fields : List (String × JsonValue))

/-- The read `value[key]` for a key that no built-in prototype defines: the field of an
object, otherwise `undefined` (`none`). -/
def JsonValue.property (key : String) : JsonValue → Option JsonValue
  | .object fields => (fields.find? (fun field => field.1 == key)).map (fun field => field.2)
  | _ => none

/-- The conversion of a value to a boolean, as `!value` applies it. -/
def JsonValue.truthy : JsonValue → Bool
  | .null => false
  | .bool value => value
  | .number value => decide (value ≠ 0)
  | .string value => decide (value ≠ "")
  | .array _ => true
  | .object _ => true

/-- The white space and line terminators that `parseFloat` skips, by code point. -/
def isWhiteSpace (c : Char) : Bool :=
  [9, 10, 11, 12, 13, 32, 160, 5760, 8192, 8193, 8194, 8195, 8196, 8197, 8198, 8199, 8200,
    8201, 8202, 8232, 8233, 8239, 8287, 12288, 65279].contains c.toNat

/-- The number written by a run of decimal digits. -/
def digitsValue (digits : List Char) : Nat :=
  digits.foldl (fun n c => 10 * n + (c.toNat - 48)) 0

/-- The longest numeric literal at the start of a text: none, an infinity, or the decimal
`digits / 10 ^ scale * 10 ^ exponent` with its sign. -/
inductive Scanned where
  | notNumber
  | infinity (negative : Bool)
  | decimal (negative : Bool) (digits : Nat) (scale : Nat) (exponent : Int)
deriving DecidableEq, Repr

/-- The digits of an exponent; without a digit the exponent indicator is not part of the
literal. -/
def scanSignedInteger (cs : List Char) (negative : Bool) : Int :=
  if (cs.takeWhile Char.isDigit).isEmpty then 0
  else if negative then -(digitsValue (cs.takeWhile Char.isDigit) : Int)
  else (digitsValue (cs.takeWhile Char.isDigit) : Int)

/-- The optional exponent part of a decimal literal. -/
def scanExponent : List Char → Int
  | c :: rest =>
    if c = 'e' || c = 'E' then
      match rest with
      | '-' :: ds => scanSignedInteger ds true
      | '+' :: ds => scanSignedInteger ds false
      | ds => scanSignedInteger ds false
    else 0
  | [] => 0

/-- The unsigned literal: `Infinity`, digits with an optional fraction, or a fraction. -/
def scanUnsigned (negative : Bool) (cs : List Char) : Scanned :=
  if "Infinity".toList.isPrefixOf cs then .infinity negative
  else
    match cs.dropWhile Char.isDigit with
    | '.' :: rest =>
      if (cs.takeWhile Char.isDigit).isEmpty && (rest.takeWhile Char.isDigit).isEmpty then
        .notNumber
      else
        .decimal negative (digitsValue (cs.takeWhile Char.isDigit ++ rest.takeWhile Char.isDigit))
          (rest.takeWhile Char.isDigit).length (scanExponent (rest.dropWhile Char.isDigit))
    | afterDigits =>
      if (cs.takeWhile Char.isDigit).isEmpty then .notNumber
      else .decimal negative (digitsValue (cs.takeWhile Char.isDigit)) 0
        (scanExponent afterDigits)

/-- Leading white space is skipped and a sign is read. -/
def scan (cs : List Char) : Scanned :=
  match cs.dropWhile isWhiteSpace with
  | '-' :: rest => scanUnsigned true rest
  | '+' :: rest => scanUnsigned false rest
  | rest => scanUnsigned false rest

/-- The value of what was scanned; no literal gives `NaN`. -/
def Scanned.toNumber : Scanned → JsNumber
  | .notNumber => .nan
  | .infinity negative => .infinity negative
  | .decimal negative digits scale exponent =>
    if negative then .finite (-((digits : ℚ) / 10 ^ scale * 10 ^ exponent))
    else .finite ((digits : ℚ) / 10 ^ scale * 10 ^ exponent)

/-- The built-in `parseFloat` on a string: the value of the longest prefix, after leading
white space, that is a decimal literal. -/
def parseFloat (text : String) : JsNumber :=
  (scan text.toList).toNumber

/-- The built-in `parseFloat` on a JSON value, which it first converts to a string: a number
reads back as itself, an array as its first element (the elements are joined by commas), and
`null`, booleans and objects give `NaN`. -/
def parseFloatOf : JsonValue → JsNumber
  | .string value => parseFloat value
  | .number value => .finite value
  | .array (first :: _) => parseFloatOf first
  | _ => .nan

/-- What the callback of `request.get` receives: the message of the transport error if
there is one, the status code and the parsed body. -/
structure Reply where
  err : Option String
  statusCode : Nat
  data : JsonValue

/-- How a call of `getStockPrice` ends: its promise resolves, or rejects, or the callback
throws and the promise is never settled. -/
inductive Settled where
  | resolved (price : JsNumber)
  | rejected (message : String)
  | thrown (message : String)

/-- The function `getStockPrice` (PlayerController.js, lines 267-287). Reading
`data['Global Quote']` of a `null` body throws inside the callback. -/
def getStockPrice (stockSymbol : String) (reply : Reply) : Settled :=
  match reply.err with
  | some message => .rejected message
  | none =>
    if reply.statusCode ≠ 200 then
      .rejected ("Failed to fetch stock data for symbol " ++ stockSymbol)
    else
      match reply.data with
      | .null => .thrown "Cannot read properties of null"
      | data =>
        match data.property "Global Quote" with
        | none => .rejected ("Stock data not available for symbol " ++ stockSymbol)
        | some stockData =>
          if !stockData.truthy then
            .rejected ("Stock data not available for symbol " ++ stockSymbol)
          else
            match stockData.property "05. price" with
            | none => .rejected ("Stock data not available for symbol " ++ stockSymbol)
            | some price =>
              if !price.truthy then
                .rejected ("Stock data not available for symbol " ++ stockSymbol)
              else .resolved (parseFloatOf price)

/-- The value is a number greater than zero. -/
def JsNumber.positive : JsNumber → Prop
  | .nan => False
  | .infinity negative => negative = false
  | .finite value => 0 < value

/-! ## Sample data -/

/-- A market in which every symbol is quoted at `price`, observed at time `0`. -/
def flatMarket (price : ℚ) : Env :=
  { quote := fun _ => .ok price, now := 0 }

/-- An active player `p1` with the given cash and holdings and no history. -/
def trader (cash : ℚ) (holdings : List Holding) : Player :=
  { _id := "p1", username := "alice", email := "alice@example.com", password := "hash",
    fullName := "", portfolio := { holdings := holdings, cash := cash },
    portfolioHistory := [], transactions := [], active := true, watchlist := [],
    notifications := [], gamesWon := 0 }

/-- The player `trader cash holdings` with one earlier snapshot already in its history. -/
def seasonedTrader (cash : ℚ) (holdings : List Holding) : Player :=
  { trader cash holdings with portfolioHistory := [{ holdings := [], cash := 1500 }] }

/-- A market in which no symbol has a quote: `getStockPrice` rejects. -/
def closedMarket : Env :=
  { quote := fun stockSymbol => .error ("Stock data not available for symbol " ++ stockSymbol)
    now := 0 }

/-- The player `trader cash holdings` before joining a game. -/
def idleTrader (cash : ℚ) (holdings : List Holding) : Player :=
  { trader cash holdings with active := false }

/-- An active player without holdings. -/
def participant (playerId username : String) (cash : ℚ) : Player :=
  { _id := playerId, username := username, email := username ++ "@example.com",
    password := "hash", fullName := "", portfolio := { holdings := [], cash := cash },
    portfolioHistory := [], transactions := [], active := true, watchlist := [],
    notifications := [], gamesWon := 0 }

/-- A game `g1` from time 10 to time 100 with the given participants. -/
def gameOf (players : List String) : Game :=
  { _id := "g1", startingTime := 10, endTime := 100, players := players,
    startingAmount := 1000 }

/-- An active player with the given cash and holdings. -/
def investor (playerId username : String) (cash : ℚ) (holdings : List Holding) : Player :=
  { participant playerId username cash with
    portfolio := { holdings := holdings, cash := cash } }

/-- Three participants: alice with cash 1500, bob with cash 800 and 10 shares recorded at 100
(value 1800), carol with cash 1500. -/
def rankedStore : Store :=
  { players := [participant "p1" "alice" 1500, investor "p2" "bob" 800 [⟨"SYM", 10, 100⟩],
      participant "p3" "carol" 1500]
    games := [gameOf ["p1", "p2", "p3"]] }

/-- Three participants valued 1500, 1800 and 1500. -/
def leagueStore : Store :=
  { players := [participant "p1" "alice" 1500, participant "p2" "bob" 1800,
      participant "p3" "carol" 1500]
    games := [gameOf ["p1", "p2", "p3"]] }

/-- Three participants of the game `g1`: alice with cash 800 and 10 shares recorded at 100
(value 1800), bob with cash 1800, carol with cash 1500; and dave with cash 5000, who is stored
but is not in the game. -/
def tiedStore : Store :=
  { players := [investor "p1" "alice" 800 [⟨"SYM", 10, 100⟩], participant "p2" "bob" 1800,
      participant "p3" "carol" 1500, participant "p4" "dave" 5000]
    games := [gameOf ["p1", "p2", "p3"]] }

/-- Two participants valued 1000 and 999.5 in a game that ends at time 100. -/
def closeStore : Store :=
  { players := [participant "p1" "alice" 1000, participant "p2" "bob" (1999 / 2)]
    games := [gameOf ["p1", "p2"]] }

/-- The store after `declareWinner` has been called on `closeStore` at time 200. -/
def afterDeclaration : Store :=
  (declareWinner 200 closeStore "g1").1

/-- The store after the player `p1` of `afterDeclaration` has bought one share quoted at 10. -/
def afterLateTrade : Store :=
  { afterDeclaration with
    players := (buyStock (flatMarket 10) afterDeclaration.players "p1" "SYM" 1).1 }

/-- A player `p1` who has not joined a game yet, an active player `p2`, and the game `g1`
that `p2` is in. -/
def lobbyStore : Store :=
  { players := [idleTrader 250 [⟨"SYM", 5, 100⟩], participant "p2" "bob" 1800]
    games := [gameOf ["p2"]] }

/-- The store of `leagueStore` with a game `g1` that nobody has joined. -/
def desertedStore : Store :=
  { players := leagueStore.players, games := [gameOf []] }

/-- A 200 reply whose body is `{"Global Quote": {"05. price": text}}`. -/
def quoteReply (text : String) : Reply :=
  { err := none, statusCode := 200
    data := .object [("Global Quote", .object [("05. price", .string text)])] }

/-- What happens after the player `p1` has joined: a trade, the declaration of the winner, a
new game and a registration. -/
def laterOps : List Op :=
  [.buyStock (flatMarket 100) "p1" "SYM" 1, .declareWinner 200 "g1",
    .createGame "g2" "300" 300 400 500, .signUp "p9" "zed" "hash" "zed@example.com"]

/-! ## Lists: first match, update and removal at an index -/

theorem findIndex_eq_none {α : Type} (p : α → Bool) (l : List α) :
    findIndex p l = none ↔ ∀ y ∈ l, p y = false := by
  induction l with
  | nil => simp [findIndex]
  | cons x xs ih =>
    by_cases hx : p x = true
    · simp [findIndex, hx]
    · simp [findIndex, hx, ih]

theorem findIndex_eq_some {α : Type} (p : α → Bool) (l : List α) (i : Nat)
    (h : findIndex p l = some i) :
    ∃ l1 x l2, l = l1 ++ x :: l2 ∧ l1.length = i ∧ p x = true ∧ ∀ y ∈ l1, p y = false := by
  induction l generalizing i with
  | nil => simp [findIndex] at h
  | cons a as ih =>
    by_cases ha : p a = true
    · simp [findIndex, ha] at h
      exact ⟨[], a, as, by simp, by simp [h], ha, by simp⟩
    · simp [findIndex, ha] at h
      obtain ⟨j, hj, rfl⟩ := h
      obtain ⟨l1, x, l2, hl, hlen, hpx, hl1⟩ := ih j hj
      refine ⟨a :: l1, x, l2, by simp [hl], by simp [hlen], hpx, ?_⟩
      intro y hy
      rcases List.mem_cons.mp hy with rfl | hy
      · simpa using ha
      · exact hl1 y hy

theorem findIndex_append_of_first {α : Type} (p : α → Bool) (l1 l2 : List α) (x : α)
    (hx : p x = true) (hl1 : ∀ y ∈ l1, p y = false) :
    findIndex p (l1 ++ x :: l2) = some l1.length := by
  induction l1 with
  | nil => simp [findIndex, hx]
  | cons a as ih =>
    have ha : p a = false := hl1 a (by simp)
    have := ih (fun y hy => hl1 y (by simp [hy]))
    simp [findIndex, ha, this]

theorem updateAt_append_length {α : Type} (f : α → α) (l1 l2 : List α) (x : α) :
    updateAt f (l1 ++ x :: l2) l1.length = l1 ++ f x :: l2 := by
  induction l1 with
  | nil => simp [updateAt]
  | cons a as ih => simp [updateAt, ih]

theorem eraseIdx_append_length {α : Type} (l1 l2 : List α) (x : α) :
    (l1 ++ x :: l2).eraseIdx l1.length = l1 ++ l2 := by
  induction l1 with
  | nil => simp
  | cons a as ih => simp [ih]

theorem getElem?_append_length {α : Type} (l1 l2 : List α) (x : α) :
    (l1 ++ x :: l2)[l1.length]? = some x := by
  rw [List.getElem?_append_right (Nat.le_refl _)]
  simp

/-! ## The store -/

theorem findById_id {db : List Player} {playerId : String} {player : Player}
    (h : findById db playerId = some player) : player._id = playerId := by
  have := List.find?_some h
  simpa using this

theorem findById_save {db : List Player} {playerId : String} {player player1 : Player}
    (h : findById db playerId = some player) (hid : player1._id = player._id) :
    findById (save db player1) playerId = some player1 := by
  have hp : player._id = playerId := findById_id h
  have h1id : player1._id = playerId := hid.trans hp
  induction db with
  | nil => simp [findById] at h
  | cons a as ih =>
    simp only [findById, save, List.map_cons] at h ih ⊢
    by_cases ha : a._id = playerId
    · have hb : (a._id == player1._id) = true := by simp [ha, h1id]
      rw [if_pos hb, List.find?_cons_of_pos]
      simp [h1id]
    · have hb : ¬ (a._id == player1._id) = true := by simp [ha, h1id]
      have hc : (a._id == playerId) = false := by simp [ha]
      rw [if_neg hb, List.find?_cons, hc]
      rw [List.find?_cons, hc] at h
      exact ih h

/-! ## What a successful trade has done -/

theorem buyHoldings_of_first (l1 l2 : List Holding) (h : Holding) (stockSymbol : String)
    (quantity stockPrice : ℚ) (hh : h.stockSymbol = stockSymbol)
    (hl1 : ∀ y ∈ l1, y.stockSymbol ≠ stockSymbol) :
    buyHoldings (l1 ++ h :: l2) stockSymbol quantity stockPrice =
      l1 ++ { h with quantity := h.quantity + quantity } :: l2 := by
  have hidx : holdingIndex (l1 ++ h :: l2) stockSymbol = some l1.length :=
    findIndex_append_of_first _ l1 l2 h (by simp [hh]) (fun y hy => by simpa using hl1 y hy)
  simp only [buyHoldings, hidx]
  exact updateAt_append_length _ l1 l2 h

theorem buyHoldings_of_absent (holdings : List Holding) (stockSymbol : String)
    (quantity stockPrice : ℚ) (habs : ∀ y ∈ holdings, y.stockSymbol ≠ stockSymbol) :
    buyHoldings holdings stockSymbol quantity stockPrice =
      holdings ++ [{ stockSymbol := stockSymbol, quantity := quantity,
                     stockPrice := stockPrice }] := by
  have hidx : holdingIndex holdings stockSymbol = none :=
    (findIndex_eq_none _ holdings).mpr (fun y hy => by simpa using habs y hy)
  simp only [buyHoldings, hidx]

theorem holdings_split_or_absent (holdings : List Holding) (stockSymbol : String) :
    (∀ y ∈ holdings, y.stockSymbol ≠ stockSymbol) ∨
    ∃ l1 h l2, holdings = l1 ++ h :: l2 ∧ h.stockSymbol = stockSymbol ∧
      ∀ y ∈ l1, y.stockSymbol ≠ stockSymbol := by
  cases hidx : holdingIndex holdings stockSymbol with
  | none =>
    left
    intro y hy
    simpa using (findIndex_eq_none _ holdings).mp hidx y hy
  | some i =>
    right
    obtain ⟨l1, x, l2, hl, _, hx, hl1⟩ := findIndex_eq_some _ holdings i hidx
    exact ⟨l1, x, l2, hl, by simpa using hx, fun y hy => by simpa using hl1 y hy⟩

theorem sellHoldings_at_length (l1 l2 : List Holding) (h : Holding) (quantity : ℚ) :
    sellHoldings (l1 ++ h :: l2) l1.length quantity =
      if h.quantity - quantity = 0 then l1 ++ l2
      else l1 ++ { h with quantity := h.quantity - quantity } :: l2 := by
  simp only [sellHoldings, updateAt_append_length, getElem?_append_length]
  split_ifs
  · exact eraseIdx_append_length l1 l2 _
  · rfl

theorem buyStock_of_success {env : Env} {db : List Player} {playerId stockSymbol : String}
    {quantity p : ℚ} {player : Player}
    (hprice : env.quote stockSymbol = .ok p) (hfind : findById db playerId = some player)
    (hok : (buyStock env db playerId stockSymbol quantity).2.success = true) :
    player.active = true ∧ p * quantity + 1 ≤ player.portfolio.cash ∧
    buyStock env db playerId stockSymbol quantity =
      (save db (buyCommit player stockSymbol quantity p env.now),
        { success := true, error := none }) := by
  simp only [buyStock, hprice, hfind] at hok ⊢
  by_cases hact : player.active = true
  · by_cases hcash : player.portfolio.cash < p * quantity + 1
    · simp [hact, hcash] at hok
    · simp [hact, hcash, not_lt.mp hcash]
  · simp [hact] at hok

theorem buyStock_player_after {env : Env} {db : List Player} {playerId stockSymbol : String}
    {quantity p : ℚ} {player : Player}
    (hprice : env.quote stockSymbol = .ok p) (hfind : findById db playerId = some player)
    (hok : (buyStock env db playerId stockSymbol quantity).2.success = true) :
    findById (buyStock env db playerId stockSymbol quantity).1 playerId =
      some (buyCommit player stockSymbol quantity p env.now) := by
  rw [(buyStock_of_success hprice hfind hok).2.2]
  exact findById_save hfind rfl

theorem sellStock_of_success {env : Env} {db : List Player} {playerId stockSymbol : String}
    {quantity p : ℚ} {player : Player}
    (hprice : env.quote stockSymbol = .ok p) (hfind : findById db playerId = some player)
    (hok : (sellStock env db playerId stockSymbol quantity).2.success = true) :
    ∃ l1 h l2, player.portfolio.holdings = l1 ++ h :: l2 ∧ h.stockSymbol = stockSymbol ∧
      (∀ y ∈ l1, y.stockSymbol ≠ stockSymbol) ∧ quantity ≤ h.quantity ∧
      player.active = true ∧
      sellStock env db playerId stockSymbol quantity =
        (save db (sellCommit player stockSymbol l1.length quantity p env.now),
          { success := true, error := none }) := by
  simp only [sellStock, hprice, hfind] at hok ⊢
  by_cases hact : player.active = true
  · cases hidx : holdingIndex player.portfolio.holdings stockSymbol with
    | none => simp [hact, hidx] at hok
    | some i =>
      obtain ⟨l1, x, l2, hl, hlen, hx, hl1⟩ := findIndex_eq_some _ _ i hidx
      subst hlen
      have hget : player.portfolio.holdings[l1.length]? = some x := by
        rw [hl]; exact getElem?_append_length l1 l2 x
      by_cases hq : x.quantity < quantity
      · simp [hact, hidx, hget, hq] at hok
      · refine ⟨l1, x, l2, hl, by simpa using hx, fun y hy => by simpa using hl1 y hy,
          not_lt.mp hq, hact, ?_⟩
        simp [hact, hget, hq]
  · simp [hact] at hok

theorem sellStock_player_after {env : Env} {db : List Player} {playerId stockSymbol : String}
    {quantity p : ℚ} {player : Player}
    (hprice : env.quote stockSymbol = .ok p) (hfind : findById db playerId = some player)
    (hok : (sellStock env db playerId stockSymbol quantity).2.success = true) :
    ∃ l1 h l2, player.portfolio.holdings = l1 ++ h :: l2 ∧ h.stockSymbol = stockSymbol ∧
      (∀ y ∈ l1, y.stockSymbol ≠ stockSymbol) ∧ quantity ≤ h.quantity ∧
      findById (sellStock env db playerId stockSymbol quantity).1 playerId =
        some (sellCommit player stockSymbol l1.length quantity p env.now) := by
  obtain ⟨l1, h, l2, hl, hh, hl1, hq, _, heq⟩ := sellStock_of_success hprice hfind hok
  refine ⟨l1, h, l2, hl, hh, hl1, hq, ?_⟩
  rw [heq]
  exact findById_save hfind rfl

/-! ## Cash after a trade -/

/-- C1: after a successful `buyStock` at fetched price `p`, the stored player's cash is the
cash before the trade minus the fee 1 minus `p * quantity`. -/
theorem buyStock_cash (env : Env) (db : List Player) (playerId stockSymbol : String)
    (quantity p : ℚ) (player : Player)
    (hprice : env.quote stockSymbol = .ok p) (hfind : findById db playerId = some player)
    (hok : (buyStock env db playerId stockSymbol quantity).2.success = true) :
    ∃ after, findById (buyStock env db playerId stockSymbol quantity).1 playerId = some after ∧
      after.portfolio.cash = player.portfolio.cash - 1 - p * quantity :=
  ⟨_, buyStock_player_after hprice hfind hok, rfl⟩

/-- C1 at the scenario of the specification: cash 1000, 5 shares at 100 leave 499. -/
theorem buyStock_cash_witness :
    (flatMarket 100).quote "SYM" = .ok 100 ∧
    findById [trader 1000 []] "p1" = some (trader 1000 []) ∧
    (buyStock (flatMarket 100) [trader 1000 []] "p1" "SYM" 5).2.success = true ∧
    ∃ after, findById (buyStock (flatMarket 100) [trader 1000 []] "p1" "SYM" 5).1 "p1" =
        some after ∧ after.portfolio.cash = 499 := by
  have hprice : (flatMarket 100).quote "SYM" = .ok 100 := rfl
  have hfind : findById [trader 1000 []] "p1" = some (trader 1000 []) := by
    simp [findById, trader]
  have hok : (buyStock (flatMarket 100) [trader 1000 []] "p1" "SYM" 5).2.success = true := by
    norm_num [buyStock, flatMarket, findById, trader]
  obtain ⟨after, h1, h2⟩ :=
    buyStock_cash (flatMarket 100) [trader 1000 []] "p1" "SYM" 5 100 (trader 1000 []) hprice
      hfind hok
  exact ⟨hprice, hfind, hok, after, h1, by rw [h2]; norm_num [trader]⟩

/-- C2: after a successful `sellStock` at fetched price `p`, the stored player's cash is the
cash before the trade minus the fee 1 plus `p * quantity`. -/
theorem sellStock_cash (env : Env) (db : List Player) (playerId stockSymbol : String)
    (quantity p : ℚ) (player : Player)
    (hprice : env.quote stockSymbol = .ok p) (hfind : findById db playerId = some player)
    (hok : (sellStock env db playerId stockSymbol quantity).2.success = true) :
    ∃ after, findById (sellStock env db playerId stockSymbol quantity).1 playerId = some after ∧
      after.portfolio.cash = player.portfolio.cash - 1 + p * quantity := by
  obtain ⟨l1, _, _, _, _, _, _, hafter⟩ := sellStock_player_after hprice hfind hok
  exact ⟨_, hafter, rfl⟩

/-- C2 at the scenario of the specification: cash 499, 5 shares sold at 110 leave 1048. -/
theorem sellStock_cash_witness :
    (flatMarket 110).quote "SYM" = .ok 110 ∧
    findById [trader 499 [⟨"SYM", 5, 100⟩]] "p1" = some (trader 499 [⟨"SYM", 5, 100⟩]) ∧
    (sellStock (flatMarket 110) [trader 499 [⟨"SYM", 5, 100⟩]] "p1" "SYM" 5).2.success = true ∧
    ∃ after, findById (sellStock (flatMarket 110) [trader 499 [⟨"SYM", 5, 100⟩]] "p1" "SYM" 5).1
        "p1" = some after ∧ after.portfolio.cash = 1048 := by
  have hprice : (flatMarket 110).quote "SYM" = .ok 110 := rfl
  have hfind : findById [trader 499 [⟨"SYM", 5, 100⟩]] "p1" =
      some (trader 499 [⟨"SYM", 5, 100⟩]) := by
    simp [findById, trader]
  have hok : (sellStock (flatMarket 110) [trader 499 [⟨"SYM", 5, 100⟩]] "p1" "SYM"
      5).2.success = true := by
    norm_num [sellStock, flatMarket, findById, trader, holdingIndex, findIndex]
  obtain ⟨after, h1, h2⟩ :=
    sellStock_cash (flatMarket 110) [trader 499 [⟨"SYM", 5, 100⟩]] "p1" "SYM" 5 110
      (trader 499 [⟨"SYM", 5, 100⟩]) hprice hfind hok
  exact ⟨hprice, hfind, hok, after, h1, by rw [h2]; norm_num [trader]⟩

/-! ## Rejected trades -/

/-- C3: for a stored, active player and a fetched price `p`, `buyStock` fails with
"Insufficient funds" exactly when `cash < p * quantity + 1`; on that failure the store is the
one it was given, so the player document (cash, holdings, history, transactions) is unchanged
and nothing was saved. -/
theorem buyStock_insufficient_funds (env : Env) (db : List Player)
    (playerId stockSymbol : String) (quantity p : ℚ) (player : Player)
    (hprice : env.quote stockSymbol = .ok p) (hfind : findById db playerId = some player)
    (hactive : player.active = true) :
    ((buyStock env db playerId stockSymbol quantity).2 =
        { success := false, error := some "Insufficient funds" } ↔
      player.portfolio.cash < p * quantity + 1) ∧
    ((buyStock env db playerId stockSymbol quantity).2 =
        { success := false, error := some "Insufficient funds" } →
      (buyStock env db playerId stockSymbol quantity).1 = db ∧
      findById (buyStock env db playerId stockSymbol quantity).1 playerId = some player) := by
  simp only [buyStock, hprice, hfind]
  by_cases hcash : player.portfolio.cash < p * quantity + 1
  · simp [hactive, hcash, hfind]
  · simp [hactive, hcash]

/-- C3 at cash 100, one share at 100: the fee is missing, the buy is rejected and the store
keeps the player as it was. -/
theorem buyStock_insufficient_funds_witness :
    (flatMarket 100).quote "SYM" = .ok 100 ∧
    findById [trader 100 []] "p1" = some (trader 100 []) ∧
    (trader 100 []).active = true ∧
    (buyStock (flatMarket 100) [trader 100 []] "p1" "SYM" 1).2 =
      { success := false, error := some "Insufficient funds" } ∧
    (buyStock (flatMarket 100) [trader 100 []] "p1" "SYM" 1).1 = [trader 100 []] := by
  have hprice : (flatMarket 100).quote "SYM" = .ok 100 := rfl
  have hfind : findById [trader 100 []] "p1" = some (trader 100 []) := by
    simp [findById, trader]
  have hactive : (trader 100 []).active = true := rfl
  have h := buyStock_insufficient_funds (flatMarket 100) [trader 100 []] "p1" "SYM" 1 100
    (trader 100 []) hprice hfind hactive
  have hfail := h.1.mpr (by norm_num [trader])
  exact ⟨hprice, hfind, hactive, hfail, (h.2 hfail).1⟩

/-- C4: for a stored, active player and a fetched price, `sellStock` fails with
"Insufficient holdings" exactly when no holding has the symbol or the first holding with the
symbol has less than the requested quantity; on that failure the store is the one it was
given, so the player document is unchanged and nothing was saved. -/
theorem sellStock_insufficient_holdings (env : Env) (db : List Player)
    (playerId stockSymbol : String) (quantity p : ℚ) (player : Player)
    (hprice : env.quote stockSymbol = .ok p) (hfind : findById db playerId = some player)
    (hactive : player.active = true) :
    ((sellStock env db playerId stockSymbol quantity).2 =
        { success := false, error := some "Insufficient holdings" } ↔
      ((∀ y ∈ player.portfolio.holdings, y.stockSymbol ≠ stockSymbol) ∨
        ∃ l1 h l2, player.portfolio.holdings = l1 ++ h :: l2 ∧ h.stockSymbol = stockSymbol ∧
          (∀ y ∈ l1, y.stockSymbol ≠ stockSymbol) ∧ h.quantity < quantity)) ∧
    ((sellStock env db playerId stockSymbol quantity).2 =
        { success := false, error := some "Insufficient holdings" } →
      (sellStock env db playerId stockSymbol quantity).1 = db ∧
      findById (sellStock env db playerId stockSymbol quantity).1 playerId = some player) := by
  simp only [sellStock, hprice, hfind]
  cases hidx : holdingIndex player.portfolio.holdings stockSymbol with
  | none =>
    have habs : ∀ y ∈ player.portfolio.holdings, y.stockSymbol ≠ stockSymbol := fun y hy => by
      simpa using (findIndex_eq_none _ _).mp hidx y hy
    simp only [hactive, hfind]
    exact ⟨⟨fun _ => Or.inl habs, fun _ => by simp⟩, fun _ => by simp [hfind]⟩
  | some i =>
    obtain ⟨l1, x, l2, hl, hlen, hx, hl1⟩ := findIndex_eq_some _ _ i hidx
    subst hlen
    have hxs : x.stockSymbol = stockSymbol := by simpa using hx
    have hl1s : ∀ y ∈ l1, y.stockSymbol ≠ stockSymbol := fun y hy => by simpa using hl1 y hy
    have hget : player.portfolio.holdings[l1.length]? = some x := by
      rw [hl]; exact getElem?_append_length l1 l2 x
    by_cases hq : x.quantity < quantity
    · simp only [hactive, hget, hq, hfind]
      exact ⟨⟨fun _ => Or.inr ⟨l1, x, l2, hl, hxs, hl1s, hq⟩, fun _ => by simp⟩,
        fun _ => by simp [hfind]⟩
    · simp only [hactive, hget, hq, hfind]
      refine ⟨⟨fun hfalse => by simp at hfalse, ?_⟩, fun hfalse => by simp at hfalse⟩
      rintro (habs | ⟨m1, y, m2, hm, hys, hm1, hyq⟩)
      · exact absurd hxs (habs x (by rw [hl]; simp))
      · exfalso
        have hidx2 : holdingIndex player.portfolio.holdings stockSymbol = some m1.length := by
          rw [hm]
          exact findIndex_append_of_first _ m1 m2 y (by simp [hys])
            (fun z hz => by simpa using hm1 z hz)
        have hlen : l1.length = m1.length := Option.some.inj (hidx.symm.trans hidx2)
        have hget2 : player.portfolio.holdings[m1.length]? = some y := by
          rw [hm]; exact getElem?_append_length m1 m2 y
        rw [hlen, hget2] at hget
        have hxy : y = x := Option.some.inj hget
        exact hq (hxy ▸ hyq)

/-- C4 at a player holding 2 shares who asks to sell 3: the sell is rejected and the store
keeps the player as it was. -/
theorem sellStock_insufficient_holdings_witness :
    (flatMarket 110).quote "SYM" = .ok 110 ∧
    findById [trader 499 [⟨"SYM", 2, 100⟩]] "p1" = some (trader 499 [⟨"SYM", 2, 100⟩]) ∧
    (trader 499 [⟨"SYM", 2, 100⟩]).active = true ∧
    (sellStock (flatMarket 110) [trader 499 [⟨"SYM", 2, 100⟩]] "p1" "SYM" 3).2 =
      { success := false, error := some "Insufficient holdings" } ∧
    (sellStock (flatMarket 110) [trader 499 [⟨"SYM", 2, 100⟩]] "p1" "SYM" 3).1 =
      [trader 499 [⟨"SYM", 2, 100⟩]] := by
  have hprice : (flatMarket 110).quote "SYM" = .ok 110 := rfl
  have hfind : findById [trader 499 [⟨"SYM", 2, 100⟩]] "p1" =
      some (trader 499 [⟨"SYM", 2, 100⟩]) := by
    simp [findById, trader]
  have hactive : (trader 499 [⟨"SYM", 2, 100⟩]).active = true := rfl
  have h := sellStock_insufficient_holdings (flatMarket 110) [trader 499 [⟨"SYM", 2, 100⟩]]
    "p1" "SYM" 3 110 (trader 499 [⟨"SYM", 2, 100⟩]) hprice hfind hactive
  have hfail := h.1.mpr (Or.inr ⟨[], ⟨"SYM", 2, 100⟩, [], rfl, rfl, by simp, by norm_num⟩)
  exact ⟨hprice, hfind, hactive, hfail, (h.2 hfail).1⟩

/-! ## Holdings after a trade -/

/-- C5: after a successful `buyStock` of `quantity` shares of `stockSymbol`, either no holding
had the symbol and the holdings are the old ones followed by one new entry of that quantity,
or the first holding with the symbol has its quantity grown by `quantity`; in both cases
every other entry is as it was. -/
theorem buyStock_holdings (env : Env) (db : List Player) (playerId stockSymbol : String)
    (quantity p : ℚ) (player : Player)
    (hprice : env.quote stockSymbol = .ok p) (hfind : findById db playerId = some player)
    (hok : (buyStock env db playerId stockSymbol quantity).2.success = true) :
    ∃ after, findById (buyStock env db playerId stockSymbol quantity).1 playerId = some after ∧
      (((∀ y ∈ player.portfolio.holdings, y.stockSymbol ≠ stockSymbol) ∧
          after.portfolio.holdings = player.portfolio.holdings ++
            [{ stockSymbol := stockSymbol, quantity := quantity, stockPrice := p }]) ∨
        ∃ l1 h l2, player.portfolio.holdings = l1 ++ h :: l2 ∧ h.stockSymbol = stockSymbol ∧
          (∀ y ∈ l1, y.stockSymbol ≠ stockSymbol) ∧
          after.portfolio.holdings =
            l1 ++ { h with quantity := h.quantity + quantity } :: l2) := by
  refine ⟨_, buyStock_player_after hprice hfind hok, ?_⟩
  rcases holdings_split_or_absent player.portfolio.holdings stockSymbol with
    habs | ⟨l1, h, l2, hl, hh, hl1⟩
  · exact Or.inl ⟨habs, buyHoldings_of_absent _ _ _ _ habs⟩
  · refine Or.inr ⟨l1, h, l2, hl, hh, hl1, ?_⟩
    show buyHoldings player.portfolio.holdings stockSymbol quantity p = _
    rw [hl]
    exact buyHoldings_of_first l1 l2 h stockSymbol quantity p hh hl1

/-- C5 at a player holding 5 shares who buys 5 more. -/
theorem buyStock_holdings_witness :
    (flatMarket 100).quote "SYM" = .ok 100 ∧
    findById [trader 1000 [⟨"SYM", 5, 100⟩]] "p1" = some (trader 1000 [⟨"SYM", 5, 100⟩]) ∧
    (buyStock (flatMarket 100) [trader 1000 [⟨"SYM", 5, 100⟩]] "p1" "SYM" 5).2.success = true ∧
    ∃ after, findById (buyStock (flatMarket 100) [trader 1000 [⟨"SYM", 5, 100⟩]] "p1" "SYM"
        5).1 "p1" = some after ∧
      (((∀ y ∈ (trader 1000 [⟨"SYM", 5, 100⟩]).portfolio.holdings, y.stockSymbol ≠ "SYM") ∧
          after.portfolio.holdings = (trader 1000 [⟨"SYM", 5, 100⟩]).portfolio.holdings ++
            [{ stockSymbol := "SYM", quantity := 5, stockPrice := 100 }]) ∨
        ∃ l1 h l2, (trader 1000 [⟨"SYM", 5, 100⟩]).portfolio.holdings = l1 ++ h :: l2 ∧
          h.stockSymbol = "SYM" ∧ (∀ y ∈ l1, y.stockSymbol ≠ "SYM") ∧
          after.portfolio.holdings = l1 ++ { h with quantity := h.quantity + 5 } :: l2) := by
  have hprice : (flatMarket 100).quote "SYM" = .ok 100 := rfl
  have hfind : findById [trader 1000 [⟨"SYM", 5, 100⟩]] "p1" =
      some (trader 1000 [⟨"SYM", 5, 100⟩]) := by
    simp [findById, trader]
  have hok : (buyStock (flatMarket 100) [trader 1000 [⟨"SYM", 5, 100⟩]] "p1" "SYM"
      5).2.success = true := by
    norm_num [buyStock, flatMarket, findById, trader]
  exact ⟨hprice, hfind, hok,
    buyStock_holdings (flatMarket 100) [trader 1000 [⟨"SYM", 5, 100⟩]] "p1" "SYM" 5 100
      (trader 1000 [⟨"SYM", 5, 100⟩]) hprice hfind hok⟩

/-- C6: after a successful `sellStock` of `quantity` shares of `stockSymbol`, the first
holding with the symbol had at least `quantity` shares; if exactly `quantity`, that entry is
gone, otherwise its quantity is lowered by `quantity`; every other entry is as it was. -/
theorem sellStock_holdings (env : Env) (db : List Player) (playerId stockSymbol : String)
    (quantity p : ℚ) (player : Player)
    (hprice : env.quote stockSymbol = .ok p) (hfind : findById db playerId = some player)
    (hok : (sellStock env db playerId stockSymbol quantity).2.success = true) :
    ∃ after l1 h l2,
      findById (sellStock env db playerId stockSymbol quantity).1 playerId = some after ∧
      player.portfolio.holdings = l1 ++ h :: l2 ∧ h.stockSymbol = stockSymbol ∧
      (∀ y ∈ l1, y.stockSymbol ≠ stockSymbol) ∧ quantity ≤ h.quantity ∧
      (h.quantity - quantity = 0 → after.portfolio.holdings = l1 ++ l2) ∧
      (h.quantity - quantity ≠ 0 → after.portfolio.holdings =
        l1 ++ { h with quantity := h.quantity - quantity } :: l2) := by
  obtain ⟨l1, h, l2, hl, hh, hl1, hq, hafter⟩ := sellStock_player_after hprice hfind hok
  refine ⟨_, l1, h, l2, hafter, hl, hh, hl1, hq, ?_, ?_⟩
  · intro hzero
    show sellHoldings player.portfolio.holdings l1.length quantity = _
    rw [hl, sellHoldings_at_length, if_pos hzero]
  · intro hrest
    show sellHoldings player.portfolio.holdings l1.length quantity = _
    rw [hl, sellHoldings_at_length, if_neg hrest]

/-- C6 at the scenario of the specification: the player sells all 5 shares held. -/
theorem sellStock_holdings_witness :
    (flatMarket 110).quote "SYM" = .ok 110 ∧
    findById [trader 499 [⟨"SYM", 5, 100⟩]] "p1" = some (trader 499 [⟨"SYM", 5, 100⟩]) ∧
    (sellStock (flatMarket 110) [trader 499 [⟨"SYM", 5, 100⟩]] "p1" "SYM" 5).2.success = true ∧
    ∃ after l1 h l2,
      findById (sellStock (flatMarket 110) [trader 499 [⟨"SYM", 5, 100⟩]] "p1" "SYM" 5).1 "p1" =
        some after ∧
      (trader 499 [⟨"SYM", 5, 100⟩]).portfolio.holdings = l1 ++ h :: l2 ∧
      h.stockSymbol = "SYM" ∧ (∀ y ∈ l1, y.stockSymbol ≠ "SYM") ∧ 5 ≤ h.quantity ∧
      (h.quantity - 5 = 0 → after.portfolio.holdings = l1 ++ l2) ∧
      (h.quantity - 5 ≠ 0 → after.portfolio.holdings =
        l1 ++ { h with quantity := h.quantity - 5 } :: l2) := by
  have hprice : (flatMarket 110).quote "SYM" = .ok 110 := rfl
  have hfind : findById [trader 499 [⟨"SYM", 5, 100⟩]] "p1" =
      some (trader 499 [⟨"SYM", 5, 100⟩]) := by
    simp [findById, trader]
  have hok : (sellStock (flatMarket 110) [trader 499 [⟨"SYM", 5, 100⟩]] "p1" "SYM"
      5).2.success = true := by
    norm_num [sellStock, flatMarket, findById, trader, holdingIndex, findIndex]
  exact ⟨hprice, hfind, hok,
    sellStock_holdings (flatMarket 110) [trader 499 [⟨"SYM", 5, 100⟩]] "p1" "SYM" 5 110
      (trader 499 [⟨"SYM", 5, 100⟩]) hprice hfind hok⟩

/-! ## Invariants of the portfolio -/

/-- A successful `buyStock` leaves the stored player with non-negative cash. -/
theorem buyStock_cash_nonneg (env : Env) (db : List Player) (playerId stockSymbol : String)
    (quantity p : ℚ) (player : Player)
    (hprice : env.quote stockSymbol = .ok p) (hfind : findById db playerId = some player)
    (hok : (buyStock env db playerId stockSymbol quantity).2.success = true) :
    ∃ after, findById (buyStock env db playerId stockSymbol quantity).1 playerId = some after ∧
      0 ≤ after.portfolio.cash := by
  refine ⟨_, buyStock_player_after hprice hfind hok, ?_⟩
  have hcash := (buyStock_of_success hprice hfind hok).2.1
  show 0 ≤ player.portfolio.cash - 1 - p * quantity
  linarith

/-- C7, the code at a failing input: a player with cash 0 and one share sells it at the quoted
price 1/2; the sell succeeds and the stored cash is -1/2. -/
theorem sellStock_cash_below_zero :
    0 ≤ (trader 0 [⟨"SYM", 1, 100⟩]).portfolio.cash ∧
    (flatMarket (1 / 2)).quote "SYM" = .ok (1 / 2) ∧
    (sellStock (flatMarket (1 / 2)) [trader 0 [⟨"SYM", 1, 100⟩]] "p1" "SYM" 1).2.success = true ∧
    ∃ after, findById (sellStock (flatMarket (1 / 2)) [trader 0 [⟨"SYM", 1, 100⟩]] "p1" "SYM"
        1).1 "p1" = some after ∧ after.portfolio.cash = -1 / 2 ∧ after.portfolio.cash < 0 := by
  have hprice : (flatMarket (1 / 2)).quote "SYM" = .ok (1 / 2) := rfl
  have hfind : findById [trader 0 [⟨"SYM", 1, 100⟩]] "p1" =
      some (trader 0 [⟨"SYM", 1, 100⟩]) := by
    simp [findById, trader]
  have hok : (sellStock (flatMarket (1 / 2)) [trader 0 [⟨"SYM", 1, 100⟩]] "p1" "SYM"
      1).2.success = true := by
    norm_num [sellStock, flatMarket, findById, trader, holdingIndex, findIndex]
  obtain ⟨l1, _, _, _, _, _, _, hafter⟩ := sellStock_player_after hprice hfind hok
  refine ⟨by norm_num [trader], hprice, hok, _, hafter, ?_, ?_⟩ <;>
    norm_num [sellCommit, trader]

/-- C8: if every holding of the player has a positive quantity and the traded quantity is
positive, then after a successful `buyStock`, and after a successful `sellStock`, every
holding of the stored player has a positive quantity. -/
theorem trade_holdings_positive (env : Env) (db : List Player) (playerId stockSymbol : String)
    (quantity p : ℚ) (player : Player)
    (hprice : env.quote stockSymbol = .ok p) (hfind : findById db playerId = some player)
    (hpos : ∀ y ∈ player.portfolio.holdings, 0 < y.quantity) (hq : 0 < quantity) :
    ((buyStock env db playerId stockSymbol quantity).2.success = true →
      ∃ after, findById (buyStock env db playerId stockSymbol quantity).1 playerId =
          some after ∧ ∀ y ∈ after.portfolio.holdings, 0 < y.quantity) ∧
    ((sellStock env db playerId stockSymbol quantity).2.success = true →
      ∃ after, findById (sellStock env db playerId stockSymbol quantity).1 playerId =
          some after ∧ ∀ y ∈ after.portfolio.holdings, 0 < y.quantity) := by
  constructor
  · intro hok
    refine ⟨_, buyStock_player_after hprice hfind hok, ?_⟩
    show ∀ y ∈ buyHoldings player.portfolio.holdings stockSymbol quantity p, 0 < y.quantity
    rcases holdings_split_or_absent player.portfolio.holdings stockSymbol with
      habs | ⟨l1, h, l2, hl, hh, hl1⟩
    · rw [buyHoldings_of_absent _ _ _ _ habs]
      intro y hy
      rcases List.mem_append.mp hy with hy | hy
      · exact hpos y hy
      · rw [List.mem_singleton.mp hy]
        exact hq
    · rw [hl] at hpos ⊢
      rw [buyHoldings_of_first l1 l2 h stockSymbol quantity p hh hl1]
      intro y hy
      rcases List.mem_append.mp hy with hy | hy
      · exact hpos y (List.mem_append_left _ hy)
      · rcases List.mem_cons.mp hy with rfl | hy
        · have := hpos h (by simp)
          show 0 < h.quantity + quantity
          linarith
        · exact hpos y (by simp [hy])
  · intro hok
    obtain ⟨l1, h, l2, hl, _, _, hle, hafter⟩ := sellStock_player_after hprice hfind hok
    refine ⟨_, hafter, ?_⟩
    show ∀ y ∈ sellHoldings player.portfolio.holdings l1.length quantity, 0 < y.quantity
    rw [hl] at hpos ⊢
    rw [sellHoldings_at_length]
    split_ifs with hzero
    · intro y hy
      rcases List.mem_append.mp hy with hy | hy
      · exact hpos y (List.mem_append_left _ hy)
      · exact hpos y (by simp [hy])
    · intro y hy
      rcases List.mem_append.mp hy with hy | hy
      · exact hpos y (List.mem_append_left _ hy)
      · rcases List.mem_cons.mp hy with rfl | hy
        · show 0 < h.quantity - quantity
          exact lt_of_le_of_ne (by linarith) (Ne.symm hzero)
        · exact hpos y (by simp [hy])

/-- C8 at a player holding 5 shares, for a buy of 5 and for a sell of 5, both successful. -/
theorem trade_holdings_positive_witness :
    (flatMarket 100).quote "SYM" = .ok 100 ∧
    findById [trader 1000 [⟨"SYM", 5, 100⟩]] "p1" = some (trader 1000 [⟨"SYM", 5, 100⟩]) ∧
    (∀ y ∈ (trader 1000 [⟨"SYM", 5, 100⟩]).portfolio.holdings, 0 < y.quantity) ∧
    (0 : ℚ) < 5 ∧
    (buyStock (flatMarket 100) [trader 1000 [⟨"SYM", 5, 100⟩]] "p1" "SYM" 5).2.success = true ∧
    (sellStock (flatMarket 100) [trader 1000 [⟨"SYM", 5, 100⟩]] "p1" "SYM" 5).2.success = true ∧
    (∃ after, findById (buyStock (flatMarket 100) [trader 1000 [⟨"SYM", 5, 100⟩]] "p1" "SYM"
        5).1 "p1" = some after ∧ ∀ y ∈ after.portfolio.holdings, 0 < y.quantity) ∧
    (∃ after, findById (sellStock (flatMarket 100) [trader 1000 [⟨"SYM", 5, 100⟩]] "p1" "SYM"
        5).1 "p1" = some after ∧ ∀ y ∈ after.portfolio.holdings, 0 < y.quantity) := by
  have hprice : (flatMarket 100).quote "SYM" = .ok 100 := rfl
  have hfind : findById [trader 1000 [⟨"SYM", 5, 100⟩]] "p1" =
      some (trader 1000 [⟨"SYM", 5, 100⟩]) := by
    simp [findById, trader]
  have hpos : ∀ y ∈ (trader 1000 [⟨"SYM", 5, 100⟩]).portfolio.holdings, 0 < y.quantity := by
    simp [trader]
  have hq : (0 : ℚ) < 5 := by norm_num
  have hbuy : (buyStock (flatMarket 100) [trader 1000 [⟨"SYM", 5, 100⟩]] "p1" "SYM"
      5).2.success = true := by
    norm_num [buyStock, flatMarket, findById, trader]
  have hsell : (sellStock (flatMarket 100) [trader 1000 [⟨"SYM", 5, 100⟩]] "p1" "SYM"
      5).2.success = true := by
    norm_num [sellStock, flatMarket, findById, trader, holdingIndex, findIndex]
  have h := trade_holdings_positive (flatMarket 100) [trader 1000 [⟨"SYM", 5, 100⟩]] "p1"
    "SYM" 5 100 (trader 1000 [⟨"SYM", 5, 100⟩]) hprice hfind hpos hq
  exact ⟨hprice, hfind, hpos, hq, hbuy, hsell, h.1 hbuy, h.2 hsell⟩

/-! ## History and recorded price -/

/-- C9: a successful `buyStock`, and a successful `sellStock`, leaves the stored player with
the history it had followed by exactly one entry, whose holdings and cash are those of the
player before the trade. -/
theorem trade_history_snapshot (env : Env) (db : List Player) (playerId stockSymbol : String)
    (quantity p : ℚ) (player : Player)
    (hprice : env.quote stockSymbol = .ok p) (hfind : findById db playerId = some player) :
    ((buyStock env db playerId stockSymbol quantity).2.success = true →
      ∃ after, findById (buyStock env db playerId stockSymbol quantity).1 playerId =
          some after ∧
        after.portfolioHistory = player.portfolioHistory ++
          [{ holdings := player.portfolio.holdings, cash := player.portfolio.cash }]) ∧
    ((sellStock env db playerId stockSymbol quantity).2.success = true →
      ∃ after, findById (sellStock env db playerId stockSymbol quantity).1 playerId =
          some after ∧
        after.portfolioHistory = player.portfolioHistory ++
          [{ holdings := player.portfolio.holdings, cash := player.portfolio.cash }]) := by
  constructor
  · intro hok
    exact ⟨_, buyStock_player_after hprice hfind hok, rfl⟩
  · intro hok
    obtain ⟨l1, _, _, _, _, _, _, hafter⟩ := sellStock_player_after hprice hfind hok
    exact ⟨_, hafter, rfl⟩

/-- C9 at a player with one earlier snapshot, cash 1000 and 5 shares, for a buy of 5 and for a
sell of 5: the new last entry is the state before the trade. -/
theorem trade_history_snapshot_witness :
    (flatMarket 100).quote "SYM" = .ok 100 ∧
    findById [seasonedTrader 1000 [⟨"SYM", 5, 100⟩]] "p1" =
      some (seasonedTrader 1000 [⟨"SYM", 5, 100⟩]) ∧
    (∃ after, findById (buyStock (flatMarket 100) [seasonedTrader 1000 [⟨"SYM", 5, 100⟩]] "p1"
        "SYM" 5).1 "p1" = some after ∧
      after.portfolioHistory = [⟨[], 1500⟩, ⟨[⟨"SYM", 5, 100⟩], 1000⟩]) ∧
    (∃ after, findById (sellStock (flatMarket 100) [seasonedTrader 1000 [⟨"SYM", 5, 100⟩]] "p1"
        "SYM" 5).1 "p1" = some after ∧
      after.portfolioHistory = [⟨[], 1500⟩, ⟨[⟨"SYM", 5, 100⟩], 1000⟩]) := by
  have hprice : (flatMarket 100).quote "SYM" = .ok 100 := rfl
  have hfind : findById [seasonedTrader 1000 [⟨"SYM", 5, 100⟩]] "p1" =
      some (seasonedTrader 1000 [⟨"SYM", 5, 100⟩]) := by
    simp [findById, seasonedTrader, trader]
  have hbuy : (buyStock (flatMarket 100) [seasonedTrader 1000 [⟨"SYM", 5, 100⟩]] "p1" "SYM"
      5).2.success = true := by
    norm_num [buyStock, flatMarket, findById, seasonedTrader, trader]
  have hsell : (sellStock (flatMarket 100) [seasonedTrader 1000 [⟨"SYM", 5, 100⟩]] "p1" "SYM"
      5).2.success = true := by
    norm_num [sellStock, flatMarket, findById, seasonedTrader, trader, holdingIndex, findIndex]
  have h := trade_history_snapshot (flatMarket 100) [seasonedTrader 1000 [⟨"SYM", 5, 100⟩]]
    "p1" "SYM" 5 100 (seasonedTrader 1000 [⟨"SYM", 5, 100⟩]) hprice hfind
  exact ⟨hprice, hfind, h.1 hbuy, h.2 hsell⟩

/-- C10, the code at a failing input: a player holding 5 shares recorded at 100 buys 1 more at
the quoted price 110; the buy succeeds and the holding is 6 shares still recorded at 100. -/
theorem buyStock_keeps_recorded_price :
    (flatMarket 110).quote "SYM" = .ok 110 ∧
    (buyStock (flatMarket 110) [trader 1000 [⟨"SYM", 5, 100⟩]] "p1" "SYM" 1).2.success = true ∧
    ∃ after, findById (buyStock (flatMarket 110) [trader 1000 [⟨"SYM", 5, 100⟩]] "p1" "SYM"
        1).1 "p1" = some after ∧ after.portfolio.holdings = [⟨"SYM", 6, 100⟩] := by
  have hprice : (flatMarket 110).quote "SYM" = .ok 110 := rfl
  have hfind : findById [trader 1000 [⟨"SYM", 5, 100⟩]] "p1" =
      some (trader 1000 [⟨"SYM", 5, 100⟩]) := by
    simp [findById, trader]
  have hok : (buyStock (flatMarket 110) [trader 1000 [⟨"SYM", 5, 100⟩]] "p1" "SYM"
      1).2.success = true := by
    norm_num [buyStock, flatMarket, findById, trader]
  refine ⟨hprice, hok, _, buyStock_player_after hprice hfind hok, ?_⟩
  norm_num [buyCommit, buyHoldings, holdingIndex, findIndex, updateAt, trader]

/-- A successful `buyStock` of a symbol the player does not hold records the fetched price in
the new holding, which is the last entry. -/
theorem buyStock_new_holding_price (env : Env) (db : List Player)
    (playerId stockSymbol : String) (quantity p : ℚ) (player : Player)
    (hprice : env.quote stockSymbol = .ok p) (hfind : findById db playerId = some player)
    (hok : (buyStock env db playerId stockSymbol quantity).2.success = true)
    (habs : ∀ y ∈ player.portfolio.holdings, y.stockSymbol ≠ stockSymbol) :
    ∃ after, findById (buyStock env db playerId stockSymbol quantity).1 playerId = some after ∧
      after.portfolio.holdings = player.portfolio.holdings ++
        [{ stockSymbol := stockSymbol, quantity := quantity, stockPrice := p }] :=
  ⟨_, buyStock_player_after hprice hfind hok, buyHoldings_of_absent _ _ _ _ habs⟩

/-! ## Transactions -/

/-- C11, the claim at a failing input: at the quote 0 a buy of 1 share and a buy of 2 shares
both succeed and leave the same list of transactions, so the appended transaction does not
tell the quantity traded. -/
theorem buyStock_transaction_omits_quantity :
    (buyStock (flatMarket 0) [trader 1000 []] "p1" "SYM" 1).2.success = true ∧
    (buyStock (flatMarket 0) [trader 1000 []] "p1" "SYM" 2).2.success = true ∧
    ∃ one two,
      findById (buyStock (flatMarket 0) [trader 1000 []] "p1" "SYM" 1).1 "p1" = some one ∧
      findById (buyStock (flatMarket 0) [trader 1000 []] "p1" "SYM" 2).1 "p1" = some two ∧
      one.transactions = two.transactions ∧
      one.transactions = [{ type := TradeType.buy, date := 0, stockPrice := 0,
                            playerUsername := "alice", stockName := "SYM", cost := 0 }] := by
  have hprice : (flatMarket 0).quote "SYM" = .ok 0 := rfl
  have hfind : findById [trader 1000 []] "p1" = some (trader 1000 []) := by
    simp [findById, trader]
  have h1 : (buyStock (flatMarket 0) [trader 1000 []] "p1" "SYM" 1).2.success = true := by
    norm_num [buyStock, flatMarket, findById, trader]
  have h2 : (buyStock (flatMarket 0) [trader 1000 []] "p1" "SYM" 2).2.success = true := by
    norm_num [buyStock, flatMarket, findById, trader]
  refine ⟨h1, h2, _, _, buyStock_player_after hprice hfind h1,
    buyStock_player_after hprice hfind h2, ?_, ?_⟩ <;>
    simp [buyCommit, trader, flatMarket]

/-- C11 as amended: a successful `buyStock`, and a successful `sellStock`, leaves the stored
player with the transactions it had followed by exactly one transaction, made of the trade
type, the date, the fetched price, the username, the symbol and the cost `p * quantity`; a
failed trade returns the store it was given. -/
theorem trade_transaction_appended (env : Env) (db : List Player)
    (playerId stockSymbol : String) (quantity p : ℚ) (player : Player)
    (hprice : env.quote stockSymbol = .ok p) (hfind : findById db playerId = some player) :
    ((buyStock env db playerId stockSymbol quantity).2.success = true →
      ∃ after, findById (buyStock env db playerId stockSymbol quantity).1 playerId =
          some after ∧
        after.transactions = player.transactions ++
          [{ type := TradeType.buy, date := env.now, stockPrice := p,
             playerUsername := player.username, stockName := stockSymbol,
             cost := p * quantity }]) ∧
    ((sellStock env db playerId stockSymbol quantity).2.success = true →
      ∃ after, findById (sellStock env db playerId stockSymbol quantity).1 playerId =
          some after ∧
        after.transactions = player.transactions ++
          [{ type := TradeType.sell, date := env.now, stockPrice := p,
             playerUsername := player.username, stockName := stockSymbol,
             cost := p * quantity }]) ∧
    ((buyStock env db playerId stockSymbol quantity).2.success = false →
      (buyStock env db playerId stockSymbol quantity).1 = db) ∧
    ((sellStock env db playerId stockSymbol quantity).2.success = false →
      (sellStock env db playerId stockSymbol quantity).1 = db) := by
  refine ⟨?_, ?_, ?_, ?_⟩
  · intro hok
    exact ⟨_, buyStock_player_after hprice hfind hok, rfl⟩
  · intro hok
    obtain ⟨l1, _, _, _, _, _, _, hafter⟩ := sellStock_player_after hprice hfind hok
    exact ⟨_, hafter, rfl⟩
  · intro hfail
    simp only [buyStock, hprice, hfind] at hfail ⊢
    by_cases hact : player.active = true
    · by_cases hcash : player.portfolio.cash < p * quantity + 1
      · simp [hact, hcash]
      · simp [hact, hcash] at hfail
    · simp [hact]
  · intro hfail
    simp only [sellStock, hprice, hfind] at hfail ⊢
    by_cases hact : player.active = true
    · cases hidx : holdingIndex player.portfolio.holdings stockSymbol with
      | none => simp [hact]
      | some i =>
        cases hget : player.portfolio.holdings[i]? with
        | none => simp [hact, hget]
        | some x =>
          by_cases hq : x.quantity < quantity
          · simp [hact, hget, hq]
          · simp [hact, hidx, hget, hq] at hfail
    · simp [hact]

/-- C11 as amended, at a player with 5 shares and cash 1000: a buy of 5 and a sell of 5 at the
quote 100 each append one transaction of cost 500, and a buy of 50 fails and saves nothing. -/
theorem trade_transaction_appended_witness :
    (flatMarket 100).quote "SYM" = .ok 100 ∧
    findById [trader 1000 [⟨"SYM", 5, 100⟩]] "p1" = some (trader 1000 [⟨"SYM", 5, 100⟩]) ∧
    (∃ after, findById (buyStock (flatMarket 100) [trader 1000 [⟨"SYM", 5, 100⟩]] "p1" "SYM"
        5).1 "p1" = some after ∧
      after.transactions = [⟨TradeType.buy, 0, 100, "alice", "SYM", 500⟩]) ∧
    (∃ after, findById (sellStock (flatMarket 100) [trader 1000 [⟨"SYM", 5, 100⟩]] "p1" "SYM"
        5).1 "p1" = some after ∧
      after.transactions = [⟨TradeType.sell, 0, 100, "alice", "SYM", 500⟩]) ∧
    (buyStock (flatMarket 100) [trader 1000 [⟨"SYM", 5, 100⟩]] "p1" "SYM" 50).1 =
      [trader 1000 [⟨"SYM", 5, 100⟩]] := by
  have hprice : (flatMarket 100).quote "SYM" = .ok 100 := rfl
  have hfind : findById [trader 1000 [⟨"SYM", 5, 100⟩]] "p1" =
      some (trader 1000 [⟨"SYM", 5, 100⟩]) := by
    simp [findById, trader]
  have hbuy : (buyStock (flatMarket 100) [trader 1000 [⟨"SYM", 5, 100⟩]] "p1" "SYM"
      5).2.success = true := by
    norm_num [buyStock, flatMarket, findById, trader]
  have hsell : (sellStock (flatMarket 100) [trader 1000 [⟨"SYM", 5, 100⟩]] "p1" "SYM"
      5).2.success = true := by
    norm_num [sellStock, flatMarket, findById, trader, holdingIndex, findIndex]
  have hfail : (buyStock (flatMarket 100) [trader 1000 [⟨"SYM", 5, 100⟩]] "p1" "SYM"
      50).2.success = false := by
    norm_num [buyStock, flatMarket, findById, trader]
  have h := trade_transaction_appended (flatMarket 100) [trader 1000 [⟨"SYM", 5, 100⟩]] "p1"
    "SYM" 5 100 (trader 1000 [⟨"SYM", 5, 100⟩]) hprice hfind
  have h50 := trade_transaction_appended (flatMarket 100) [trader 1000 [⟨"SYM", 5, 100⟩]] "p1"
    "SYM" 50 100 (trader 1000 [⟨"SYM", 5, 100⟩]) hprice hfind
  obtain ⟨b, hb1, hb2⟩ := h.1 hbuy
  obtain ⟨c, hc1, hc2⟩ := h.2.1 hsell
  refine ⟨hprice, hfind, ⟨b, hb1, ?_⟩, ⟨c, hc1, ?_⟩, h50.2.2.1 hfail⟩
  · rw [hb2]; norm_num [trader, flatMarket]
  · rw [hc2]; norm_num [trader, flatMarket]

/-! ## The player checks of a trade -/

/-- C12, the claim at a failing input: no player has the id `ghost`, yet for a symbol whose
quote is rejected `buyStock` and `sellStock` fail with the message of the quote, not with
"Player not found"; an inactive player gets the same message, not "Player is not active". -/
theorem trade_quote_error_comes_first :
    findById [idleTrader 1000 []] "ghost" = none ∧
    (buyStock closedMarket [idleTrader 1000 []] "ghost" "BAD" 1).2 =
      { success := false, error := some "Stock data not available for symbol BAD" } ∧
    (sellStock closedMarket [idleTrader 1000 []] "ghost" "BAD" 1).2 =
      { success := false, error := some "Stock data not available for symbol BAD" } ∧
    (buyStock closedMarket [idleTrader 1000 []] "ghost" "BAD" 1).2.error ≠
      some "Player not found" ∧
    (sellStock closedMarket [idleTrader 1000 []] "ghost" "BAD" 1).2.error ≠
      some "Player not found" ∧
    findById [idleTrader 1000 []] "p1" = some (idleTrader 1000 []) ∧
    (idleTrader 1000 []).active = false ∧
    (buyStock closedMarket [idleTrader 1000 []] "p1" "BAD" 1).2.error ≠
      some "Player is not active" ∧
    (sellStock closedMarket [idleTrader 1000 []] "p1" "BAD" 1).2.error ≠
      some "Player is not active" := by
  refine ⟨by simp [findById, idleTrader, trader], by simp [buyStock, closedMarket],
    by simp [sellStock, closedMarket], by simp [buyStock, closedMarket],
    by simp [sellStock, closedMarket], by simp [findById, idleTrader, trader], rfl,
    by simp [buyStock, closedMarket], by simp [sellStock, closedMarket]⟩

/-- C12 as amended: when the quote is rejected with message `m`, `buyStock` and `sellStock`
fail with `m`; when the quote is fetched, they fail with "Player not found" if the id does not
resolve and with "Player is not active" if the player found is not active, whatever the
quantity. In each case the result is `{ success: false, error }` and the store is the one
given. -/
theorem trade_player_checks (env : Env) (db : List Player) (playerId stockSymbol : String)
    (quantity : ℚ) :
    (∀ m, env.quote stockSymbol = .error m →
      buyStock env db playerId stockSymbol quantity =
        (db, { success := false, error := some m }) ∧
      sellStock env db playerId stockSymbol quantity =
        (db, { success := false, error := some m })) ∧
    (∀ p, env.quote stockSymbol = .ok p → findById db playerId = none →
      buyStock env db playerId stockSymbol quantity =
        (db, { success := false, error := some "Player not found" }) ∧
      sellStock env db playerId stockSymbol quantity =
        (db, { success := false, error := some "Player not found" })) ∧
    (∀ p player, env.quote stockSymbol = .ok p → findById db playerId = some player →
      player.active = false →
      buyStock env db playerId stockSymbol quantity =
        (db, { success := false, error := some "Player is not active" }) ∧
      sellStock env db playerId stockSymbol quantity =
        (db, { success := false, error := some "Player is not active" })) := by
  refine ⟨?_, ?_, ?_⟩
  · intro m hm
    simp [buyStock, sellStock, hm]
  · intro p hp hnone
    simp [buyStock, sellStock, hp, hnone]
  · intro p player hp hfind hidle
    simp [buyStock, sellStock, hp, hfind, hidle]

/-- C12 as amended, at the quote 100: the id `ghost` gives "Player not found" and the
inactive player `p1` gives "Player is not active", for a buy and for a sell. -/
theorem trade_player_checks_witness :
    (flatMarket 100).quote "SYM" = .ok 100 ∧
    findById [idleTrader 1000 []] "ghost" = none ∧
    findById [idleTrader 1000 []] "p1" = some (idleTrader 1000 []) ∧
    (idleTrader 1000 []).active = false ∧
    buyStock (flatMarket 100) [idleTrader 1000 []] "ghost" "SYM" 5 =
      ([idleTrader 1000 []], { success := false, error := some "Player not found" }) ∧
    sellStock (flatMarket 100) [idleTrader 1000 []] "ghost" "SYM" 5 =
      ([idleTrader 1000 []], { success := false, error := some "Player not found" }) ∧
    buyStock (flatMarket 100) [idleTrader 1000 []] "p1" "SYM" 5 =
      ([idleTrader 1000 []], { success := false, error := some "Player is not active" }) ∧
    sellStock (flatMarket 100) [idleTrader 1000 []] "p1" "SYM" 5 =
      ([idleTrader 1000 []], { success := false, error := some "Player is not active" }) := by
  have hprice : (flatMarket 100).quote "SYM" = .ok 100 := rfl
  have hnone : findById [idleTrader 1000 []] "ghost" = none := by
    simp [findById, idleTrader, trader]
  have hfind : findById [idleTrader 1000 []] "p1" = some (idleTrader 1000 []) := by
    simp [findById, idleTrader, trader]
  have hidle : (idleTrader 1000 []).active = false := rfl
  have hghost := (trade_player_checks (flatMarket 100) [idleTrader 1000 []] "ghost" "SYM"
    5).2.1 100 hprice hnone
  have hp1 := (trade_player_checks (flatMarket 100) [idleTrader 1000 []] "p1" "SYM"
    5).2.2 100 (idleTrader 1000 []) hprice hfind hidle
  exact ⟨hprice, hnone, hfind, hidle, hghost.1, hghost.2, hp1.1, hp1.2⟩

/-! ## Portfolio value -/

theorem foldl_add_eq_sum {α : Type} (f : α → ℚ) (l : List α) (start : ℚ) :
    l.foldl (fun total x => total + f x) start = start + (l.map f).sum := by
  induction l generalizing start with
  | nil => simp
  | cons a as ih => simp [ih, add_assoc]

/-- C13: on every portfolio `calculatePortfolioValue` is the cash plus the sum over the
holdings of `quantity * stockPrice`, the copy of AdminController.js returns what the copy of
PlayerController.js returns, and without holdings the value is the cash. -/
theorem calculatePortfolioValue_eq (portfolio : Portfolio) (cash : ℚ) :
    PlayerController.calculatePortfolioValue portfolio =
      portfolio.cash + (portfolio.holdings.map (fun h => h.quantity * h.stockPrice)).sum ∧
    AdminController.calculatePortfolioValue portfolio =
      PlayerController.calculatePortfolioValue portfolio ∧
    PlayerController.calculatePortfolioValue { holdings := [], cash := cash } = cash ∧
    AdminController.calculatePortfolioValue { holdings := [], cash := cash } = cash :=
  ⟨foldl_add_eq_sum _ _ _, rfl, rfl, rfl⟩

/-! ## The leaderboard -/

theorem filter_orderedInsert_value (v : ℚ) (a : PlayerDetail) (l : List PlayerDetail) :
    (l.orderedInsert ranksBefore a).filter (fun d => decide (d.portfolioValue = v)) =
      (a :: l).filter (fun d => decide (d.portfolioValue = v)) := by
  induction l with
  | nil => simp
  | cons b bs ih =>
    by_cases hab : ranksBefore a b
    · simp [List.orderedInsert, hab]
    · have hlt : a.portfolioValue < b.portfolioValue := not_le.mp hab
      simp only [List.orderedInsert, hab, if_false, List.filter_cons, ih]
      by_cases ha : a.portfolioValue = v
      · have hb : ¬ b.portfolioValue = v := fun hb => by rw [ha, hb] at hlt; exact lt_irrefl _ hlt
        simp [ha, hb]
      · simp [ha]

theorem filter_sortDetails_value (v : ℚ) (l : List PlayerDetail) :
    (sortDetails l).filter (fun d => decide (d.portfolioValue = v)) =
      l.filter (fun d => decide (d.portfolioValue = v)) := by
  induction l with
  | nil => simp [sortDetails]
  | cons a as ih =>
    simp only [sortDetails, List.insertionSort] at ih ⊢
    rw [filter_orderedInsert_value, List.filter_cons, List.filter_cons, ih]

/-- C14: for a stored game `getLeaderboard` answers 200 with the usernames of a list of
player details that has one detail per element of `game.players`, is a rearrangement of the
details of `game.players` (for a stored player the username with `calculatePortfolioValue` of
the portfolio, else "Unknown" with 0), is in non-increasing order of portfolio value, and
keeps the details of each single value in the order they have in `game.players`. -/
theorem getLeaderboard_ordered (store : Store) (gameId : String) (game : Game)
    (hgame : findGameById store.games gameId = some game) :
    ∃ sorted : List PlayerDetail,
      getLeaderboard store gameId =
        { status := 200, body := .leaderboard (sorted.map (fun d => d.username)) } ∧
      sorted.length = game.players.length ∧
      sorted.Perm (game.players.map (fun playerId =>
        match findById store.players playerId with
        | none => { username := "Unknown", portfolioValue := 0 }
        | some player =>
          { username := player.username
            portfolioValue := PlayerController.calculatePortfolioValue player.portfolio })) ∧
      sorted.Sorted (fun a b => b.portfolioValue ≤ a.portfolioValue) ∧
      ∀ v, sorted.filter (fun d => decide (d.portfolioValue = v)) =
        (game.players.map (fun playerId =>
          match findById store.players playerId with
          | none => { username := "Unknown", portfolioValue := 0 }
          | some player =>
            { username := player.username
              portfolioValue :=
                PlayerController.calculatePortfolioValue player.portfolio })).filter
          (fun d => decide (d.portfolioValue = v)) := by
  refine ⟨sortDetails (playerDetails store.players game.players), ?_, ?_, ?_, ?_, ?_⟩
  · simp [getLeaderboard, hgame]
  · simp [sortDetails, List.length_insertionSort, playerDetails]
  · exact List.perm_insertionSort _ _
  · exact List.sorted_insertionSort ranksBefore _
  · intro v
    exact filter_sortDetails_value v _

/-- C14 at a game of three players valued 1500 (alice, in cash), 1800 (bob, of which 1000 in
shares) and 1500 (carol, in cash): bob is first and alice and carol follow in the order of
`game.players`. -/
theorem getLeaderboard_ordered_witness :
    findGameById rankedStore.games "g1" = some (gameOf ["p1", "p2", "p3"]) ∧
    getLeaderboard rankedStore "g1" =
      { status := 200, body := .leaderboard ["bob", "alice", "carol"] } ∧
    ∃ sorted : List PlayerDetail,
      getLeaderboard rankedStore "g1" =
        { status := 200, body := .leaderboard (sorted.map (fun d => d.username)) } ∧
      sorted.length = (gameOf ["p1", "p2", "p3"]).players.length ∧
      sorted.Perm ((gameOf ["p1", "p2", "p3"]).players.map (fun playerId =>
        match findById rankedStore.players playerId with
        | none => { username := "Unknown", portfolioValue := 0 }
        | some player =>
          { username := player.username
            portfolioValue := PlayerController.calculatePortfolioValue player.portfolio })) ∧
      sorted.Sorted (fun a b => b.portfolioValue ≤ a.portfolioValue) ∧
      ∀ v, sorted.filter (fun d => decide (d.portfolioValue = v)) =
        ((gameOf ["p1", "p2", "p3"]).players.map (fun playerId =>
          match findById rankedStore.players playerId with
          | none => { username := "Unknown", portfolioValue := 0 }
          | some player =>
            { username := player.username
              portfolioValue :=
                PlayerController.calculatePortfolioValue player.portfolio })).filter
          (fun d => decide (d.portfolioValue = v)) := by
  have hgame : findGameById rankedStore.games "g1" = some (gameOf ["p1", "p2", "p3"]) := by
    simp [findGameById, rankedStore, gameOf]
  have hd : playerDetails rankedStore.players (gameOf ["p1", "p2", "p3"]).players =
      [⟨"alice", 1500⟩, ⟨"bob", 1800⟩, ⟨"carol", 1500⟩] := by
    simp +decide [playerDetails, findById, rankedStore, investor, participant, gameOf,
      PlayerController.calculatePortfolioValue, List.find?]
    norm_num
  refine ⟨hgame, ?_, getLeaderboard_ordered rankedStore "g1" (gameOf ["p1", "p2", "p3"]) hgame⟩
  simp only [getLeaderboard, hgame, hd]
  norm_num [sortDetails, List.insertionSort, List.orderedInsert, ranksBefore]

/-! ## Declaring the winner -/

theorem findGameById_id {games : List Game} {gameId : String} {game : Game}
    (h : findGameById games gameId = some game) : game._id = gameId := by
  have := List.find?_some h
  simpa using this

theorem findGameById_saveGame {games : List Game} {gameId : String} {game game1 : Game}
    (h : findGameById games gameId = some game) (hid : game1._id = game._id) :
    findGameById (saveGame games game1) gameId = some game1 := by
  have hg : game._id = gameId := findGameById_id h
  have h1id : game1._id = gameId := hid.trans hg
  induction games with
  | nil => simp [findGameById] at h
  | cons a as ih =>
    simp only [findGameById, saveGame, List.map_cons] at h ih ⊢
    by_cases ha : a._id = gameId
    · have hb : (a._id == game1._id) = true := by simp [ha, h1id]
      rw [if_pos hb, List.find?_cons_of_pos]
      simp [h1id]
    · have hb : ¬ (a._id == game1._id) = true := by simp [ha, h1id]
      have hc : (a._id == gameId) = false := by simp [ha]
      rw [if_neg hb, List.find?_cons, hc]
      rw [List.find?_cons, hc] at h
      exact ih h

theorem scanWinner_snoc (l : List Player) (e : Player) :
    scanWinner (playerPortfolioValues (l ++ [e])) =
      scanStep (scanWinner (playerPortfolioValues l))
        { playerId := e._id, username := e.username
          portfolioValue := AdminController.calculatePortfolioValue e.portfolio } := by
  simp [scanWinner, playerPortfolioValues, List.foldl_append]

theorem populate_snoc_none (players : List Player) (ids : List String) (playerId : String)
    (h : findById players playerId = none) :
    populate players (ids ++ [playerId]) = populate players ids := by
  simp [populate, List.filterMap_append, h]

theorem populate_snoc_some (players : List Player) (ids : List String) (playerId : String)
    (e : Player) (h : findById players playerId = some e) :
    populate players (ids ++ [playerId]) = populate players ids ++ [e] := by
  simp [populate, List.filterMap_append, h]

theorem scanWinner_populate (players : List Player) (ids : List String) :
    ((∀ playerId ∈ ids, findById players playerId = none) ∧
      scanWinner (playerPortfolioValues (populate players ids)) =
        { winner := none, maxPortfolioValue := none }) ∨
    ∃ ids1 winnerId ids2 w, ids = ids1 ++ winnerId :: ids2 ∧
      findById players winnerId = some w ∧
      (∀ playerId ∈ ids1, ∀ p, findById players playerId = some p →
        AdminController.calculatePortfolioValue p.portfolio <
          AdminController.calculatePortfolioValue w.portfolio) ∧
      (∀ playerId ∈ ids2, ∀ p, findById players playerId = some p →
        AdminController.calculatePortfolioValue p.portfolio ≤
          AdminController.calculatePortfolioValue w.portfolio) ∧
      scanWinner (playerPortfolioValues (populate players ids)) =
        { winner := some (w._id, w.username)
          maxPortfolioValue := some (AdminController.calculatePortfolioValue w.portfolio) } := by
  induction ids using List.reverseRecOn with
  | nil => exact Or.inl ⟨by simp, rfl⟩
  | append_singleton ids last ih =>
    cases hlast : findById players last with
    | none =>
      rw [populate_snoc_none players ids last hlast]
      rcases ih with ⟨hnone, hscan⟩ | ⟨ids1, winnerId, ids2, w, hids, hw, h1, h2, hscan⟩
      · left
        refine ⟨?_, hscan⟩
        intro playerId hmem
        rcases List.mem_append.mp hmem with hmem | hmem
        · exact hnone playerId hmem
        · rw [List.mem_singleton.mp hmem]
          exact hlast
      · right
        refine ⟨ids1, winnerId, ids2 ++ [last], w, by simp [hids], hw, h1, ?_, hscan⟩
        intro playerId hmem p hp
        rcases List.mem_append.mp hmem with hmem | hmem
        · exact h2 playerId hmem p hp
        · rw [List.mem_singleton.mp hmem, hlast] at hp
          cases hp
    | some e =>
      right
      rw [populate_snoc_some players ids last e hlast, scanWinner_snoc]
      rcases ih with ⟨hnone, hscan⟩ | ⟨ids1, winnerId, ids2, w, hids, hw, h1, h2, hscan⟩
      · refine ⟨ids, last, [], e, rfl, hlast, ?_, by simp, by simp [hscan, scanStep, exceeds]⟩
        intro playerId hmem p hp
        rw [hnone playerId hmem] at hp
        cases hp
      · rw [hscan]
        by_cases hlt : AdminController.calculatePortfolioValue w.portfolio <
            AdminController.calculatePortfolioValue e.portfolio
        · refine ⟨ids, last, [], e, rfl, hlast, ?_, by simp,
            by simp [scanStep, exceeds, hlt]⟩
          intro playerId hmem p hp
          rw [hids] at hmem
          rcases List.mem_append.mp hmem with hmem | hmem
          · exact lt_trans (h1 playerId hmem p hp) hlt
          · rcases List.mem_cons.mp hmem with heq | hmem
            · rw [heq, hw] at hp
              cases hp
              exact hlt
            · exact lt_of_le_of_lt (h2 playerId hmem p hp) hlt
        · refine ⟨ids1, winnerId, ids2 ++ [last], w, by simp [hids], hw, h1, ?_,
            by simp [scanStep, exceeds, hlt]⟩
          intro playerId hmem p hp
          rcases List.mem_append.mp hmem with hmem | hmem
          · exact h2 playerId hmem p hp
          · rw [List.mem_singleton.mp hmem, hlast] at hp
            cases hp
            exact not_lt.mp hlt

/-- C15: for a stored game that has ended and of whose `players` at least one is a stored
player, `declareWinner` answers 200 naming a participant `w`: an element of `game.players`
such that every participant before it in `game.players` has a smaller portfolio value and
every participant after it has a portfolio value that is not greater. -/
theorem declareWinner_selects_first_maximum (now : Nat) (store : Store) (gameId : String)
    (game : Game) (hgame : findGameById store.games gameId = some game)
    (hended : game.endTime ≤ now)
    (hsome : ∃ playerId ∈ game.players, ∃ p, findById store.players playerId = some p) :
    ∃ ids1 winnerId ids2 w, game.players = ids1 ++ winnerId :: ids2 ∧
      findById store.players winnerId = some w ∧
      (∀ playerId ∈ ids1, ∀ p, findById store.players playerId = some p →
        AdminController.calculatePortfolioValue p.portfolio <
          AdminController.calculatePortfolioValue w.portfolio) ∧
      (∀ playerId ∈ ids2, ∀ p, findById store.players playerId = some p →
        AdminController.calculatePortfolioValue p.portfolio ≤
          AdminController.calculatePortfolioValue w.portfolio) ∧
      (declareWinner now store gameId).2 =
        { status := 200, body := .winner "Winner declared successfully" w.username } := by
  rcases scanWinner_populate store.players game.players with
    ⟨hnone, _⟩ | ⟨ids1, winnerId, ids2, w, hids, hw, h1, h2, hscan⟩
  · obtain ⟨playerId, hmem, p, hp⟩ := hsome
    rw [hnone playerId hmem] at hp
    cases hp
  · refine ⟨ids1, winnerId, ids2, w, hids, hw, h1, h2, ?_⟩
    have hnot : ¬ now < game.endTime := not_lt.mpr hended
    simp only [declareWinner, hgame, hnot, if_false, hscan]

/-- C15 at an ended game whose participants are valued 1800 (alice, of which 1000 in
shares), 1800 (bob) and 1500 (carol), in a store that also holds dave, valued 5000 and not in
the game: alice, the first of the two leaders of the game, is declared. -/
theorem declareWinner_selects_first_maximum_witness :
    findGameById tiedStore.games "g1" = some (gameOf ["p1", "p2", "p3"]) ∧
    (gameOf ["p1", "p2", "p3"]).endTime ≤ 200 ∧
    (∃ playerId ∈ (gameOf ["p1", "p2", "p3"]).players,
      ∃ p, findById tiedStore.players playerId = some p) ∧
    (declareWinner 200 tiedStore "g1").2 =
      { status := 200, body := .winner "Winner declared successfully" "alice" } ∧
    ∃ ids1 winnerId ids2 w, (gameOf ["p1", "p2", "p3"]).players = ids1 ++ winnerId :: ids2 ∧
      findById tiedStore.players winnerId = some w ∧
      (∀ playerId ∈ ids1, ∀ p, findById tiedStore.players playerId = some p →
        AdminController.calculatePortfolioValue p.portfolio <
          AdminController.calculatePortfolioValue w.portfolio) ∧
      (∀ playerId ∈ ids2, ∀ p, findById tiedStore.players playerId = some p →
        AdminController.calculatePortfolioValue p.portfolio ≤
          AdminController.calculatePortfolioValue w.portfolio) ∧
      (declareWinner 200 tiedStore "g1").2 =
        { status := 200, body := .winner "Winner declared successfully" w.username } := by
  have hgame : findGameById tiedStore.games "g1" = some (gameOf ["p1", "p2", "p3"]) := by
    simp [findGameById, tiedStore, gameOf]
  have hended : (gameOf ["p1", "p2", "p3"]).endTime ≤ 200 := by simp [gameOf]
  have hsome : ∃ playerId ∈ (gameOf ["p1", "p2", "p3"]).players,
      ∃ p, findById tiedStore.players playerId = some p :=
    ⟨"p1", by simp [gameOf], investor "p1" "alice" 800 [⟨"SYM", 10, 100⟩],
      by simp [findById, tiedStore, investor, participant]⟩
  have hpop : populate tiedStore.players (gameOf ["p1", "p2", "p3"]).players =
      [investor "p1" "alice" 800 [⟨"SYM", 10, 100⟩], participant "p2" "bob" 1800,
        participant "p3" "carol" 1500] := by
    simp +decide [populate, findById, tiedStore, investor, participant, gameOf, List.find?]
  refine ⟨hgame, hended, hsome, ?_,
    declareWinner_selects_first_maximum 200 tiedStore "g1" (gameOf ["p1", "p2", "p3"]) hgame
      hended hsome⟩
  have hnot : ¬ 200 < (gameOf ["p1", "p2", "p3"]).endTime := by simp [gameOf]
  simp only [declareWinner, hgame, hnot, if_false, hpop]
  norm_num [scanWinner, playerPortfolioValues, scanStep, exceeds, investor, participant,
    AdminController.calculatePortfolioValue]

/-- C16: `declareWinner` answers 404 "Game not found" and returns the store it was given when
the game id does not resolve; it answers 400 "Game has not ended yet" exactly when the game is
stored and the current time is before its `endTime`, and then too the store is the one
given: no winner is set and nothing is saved. -/
theorem declareWinner_rejections (now : Nat) (store : Store) (gameId : String) :
    (findGameById store.games gameId = none →
      declareWinner now store gameId =
        (store, { status := 404, body := .error "Game not found" })) ∧
    ((declareWinner now store gameId).2 =
        { status := 400, body := .error "Game has not ended yet" } ↔
      ∃ game, findGameById store.games gameId = some game ∧ now < game.endTime) ∧
    ((declareWinner now store gameId).2 =
        { status := 400, body := .error "Game has not ended yet" } →
      (declareWinner now store gameId).1 = store) := by
  cases hgame : findGameById store.games gameId with
  | none => simp [declareWinner, hgame]
  | some game =>
    by_cases hnow : now < game.endTime
    · simp [declareWinner, hgame, hnow]
    · cases hscan : (scanWinner (playerPortfolioValues
          (populate store.players game.players))).winner with
      | none => simp [declareWinner, hgame, hnow, hscan]
      | some w =>
        obtain ⟨playerId, username⟩ := w
        simp [declareWinner, hgame, hnow, hscan]

/-- C16 at the game `g1`, which ends at time 100: an unknown id gives 404, the time 50 gives
400, and the store is returned as given both times. -/
theorem declareWinner_rejections_witness :
    findGameById leagueStore.games "nogame" = none ∧
    declareWinner 50 leagueStore "nogame" =
      (leagueStore, { status := 404, body := .error "Game not found" }) ∧
    (∃ game, findGameById leagueStore.games "g1" = some game ∧ 50 < game.endTime) ∧
    (declareWinner 50 leagueStore "g1").2 =
      { status := 400, body := .error "Game has not ended yet" } ∧
    (declareWinner 50 leagueStore "g1").1 = leagueStore := by
  have hnone : findGameById leagueStore.games "nogame" = none := by
    simp +decide [findGameById, leagueStore, gameOf, List.find?]
  have hsome : ∃ game, findGameById leagueStore.games "g1" = some game ∧ 50 < game.endTime :=
    ⟨gameOf ["p1", "p2", "p3"], by simp [findGameById, leagueStore, gameOf], by simp [gameOf]⟩
  have hresp := (declareWinner_rejections 50 leagueStore "g1").2.1.mpr hsome
  exact ⟨hnone, (declareWinner_rejections 50 leagueStore "nogame").1 hnone, hsome, hresp,
    (declareWinner_rejections 50 leagueStore "g1").2.2 hresp⟩

theorem closeStore_first_declaration : declareWinner 200 closeStore "g1" =
    (closeStore, { status := 200, body := .winner "Winner declared successfully" "alice" }) := by
  have hgame : findGameById closeStore.games "g1" = some (gameOf ["p1", "p2"]) := by
    simp [findGameById, closeStore, gameOf]
  have hpop : populate closeStore.players (gameOf ["p1", "p2"]).players =
      [participant "p1" "alice" 1000, participant "p2" "bob" (1999 / 2)] := by
    simp +decide [populate, findById, closeStore, participant, gameOf, List.find?]
  have hnot : ¬ 200 < (gameOf ["p1", "p2"]).endTime := by simp [gameOf]
  simp only [declareWinner, hgame, hnot, if_false, hpop]
  norm_num [scanWinner, playerPortfolioValues, scanStep, exceeds, participant,
    AdminController.calculatePortfolioValue]

theorem afterLateTrade_eq : afterLateTrade =
    { players := [buyCommit (participant "p1" "alice" 1000) "SYM" 1 10 0,
        participant "p2" "bob" (1999 / 2)]
      games := [gameOf ["p1", "p2"]] } := by
  simp only [afterLateTrade, afterDeclaration, closeStore_first_declaration]
  norm_num [buyStock, flatMarket, findById, closeStore, participant, save, buyCommit]
  decide

theorem afterLateTrade_declaration : (declareWinner 300 afterLateTrade "g1").2 =
    { status := 200, body := .winner "Winner declared successfully" "bob" } := by
  have hgame : findGameById afterLateTrade.games "g1" = some (gameOf ["p1", "p2"]) := by
    simp [afterLateTrade_eq, findGameById, gameOf]
  have hpop : populate afterLateTrade.players ["p1", "p2"] =
      [buyCommit (participant "p1" "alice" 1000) "SYM" 1 10 0,
        participant "p2" "bob" (1999 / 2)] := by
    simp +decide [afterLateTrade_eq, populate, findById, participant, buyCommit, List.find?]
  simp only [declareWinner, hgame]
  have hnot : ¬ 300 < (gameOf ["p1", "p2"]).endTime := by simp [gameOf]
  simp only [hnot, if_false]
  have hplayers : (gameOf ["p1", "p2"]).players = ["p1", "p2"] := rfl
  simp only [hplayers, hpop]
  norm_num [scanWinner, playerPortfolioValues, scanStep, exceeds, participant, buyCommit,
    buyHoldings, holdingIndex, findIndex, AdminController.calculatePortfolioValue]

/-- C17, the claim at a failing input: `declareWinner` on an ended game answers with alice
(valued 1000 against 999.5); alice then buys one share, which costs the fee; a second
`declareWinner` on the same game answers with bob. -/
theorem declareWinner_second_call_changes_winner :
    (declareWinner 200 closeStore "g1").2 =
      { status := 200, body := .winner "Winner declared successfully" "alice" } ∧
    (buyStock (flatMarket 10) afterDeclaration.players "p1" "SYM" 1).2.success = true ∧
    (declareWinner 300 afterLateTrade "g1").2 =
      { status := 200, body := .winner "Winner declared successfully" "bob" } := by
  refine ⟨by rw [closeStore_first_declaration], ?_, afterLateTrade_declaration⟩
  simp only [afterDeclaration, closeStore_first_declaration]
  norm_num [buyStock, flatMarket, findById, closeStore, participant]

/-- C17 as amended: `declareWinner` does not check for an earlier declaration; a second call
made after a successful one, with no player document changed in between, answers as the first
call did. -/
theorem declareWinner_twice_same_answer (now1 now2 : Nat) (store : Store) (gameId : String)
    (hnow : now1 ≤ now2) (hok : (declareWinner now1 store gameId).2.status = 200) :
    (declareWinner now2 (declareWinner now1 store gameId).1 gameId).2 =
      (declareWinner now1 store gameId).2 := by
  cases hgame : findGameById store.games gameId with
  | none => simp [declareWinner, hgame] at hok
  | some game =>
    by_cases hnot : now1 < game.endTime
    · simp [declareWinner, hgame, hnot] at hok
    · have hnot2 : ¬ now2 < game.endTime := fun h => hnot (lt_of_le_of_lt hnow h)
      cases hscan : (scanWinner (playerPortfolioValues
          (populate store.players game.players))).winner with
      | none => simp [declareWinner, hgame, hnot, hscan] at hok
      | some w =>
        obtain ⟨playerId, username⟩ := w
        have hfirst : declareWinner now1 store gameId =
            (store, { status := 200, body := .winner "Winner declared successfully" username }) := by
          simp [declareWinner, hgame, hnot, hscan]
        rw [hfirst]
        simp [declareWinner, hgame, hnot2, hscan]

/-- C17 as amended, at the ended game of `closeStore`: called at time 200 and again at time
300 with no trade in between, `declareWinner` names alice both times. -/
theorem declareWinner_twice_same_answer_witness :
    200 ≤ 300 ∧ (declareWinner 200 closeStore "g1").2.status = 200 ∧
    (declareWinner 300 (declareWinner 200 closeStore "g1").1 "g1").2 =
      (declareWinner 200 closeStore "g1").2 ∧
    (declareWinner 300 (declareWinner 200 closeStore "g1").1 "g1").2 =
      { status := 200, body := .winner "Winner declared successfully" "alice" } := by
  have hok : (declareWinner 200 closeStore "g1").2.status = 200 := by
    rw [closeStore_first_declaration]
  have h := declareWinner_twice_same_answer 200 300 closeStore "g1" (by norm_num) hok
  exact ⟨by norm_num, hok, h, by rw [h, closeStore_first_declaration]⟩

/-! ## Joining a game -/

/-- C18: after a successful `joinGame` the stored player has no holdings, the starting amount
of the game as cash, no portfolio history, no transactions, `active = true` and the
notifications it had followed by exactly one more; the stored game has the players it had
followed by the player id. -/
theorem joinGame_resets_player (now : Nat) (dateText : Nat → String) (store : Store)
    (playerId gameId : String) (player : Player) (game : Game)
    (hplayer : findById store.players playerId = some player)
    (hgame : findGameById store.games gameId = some game)
    (hok : (joinGame now dateText store playerId gameId).2.status = 200) :
    ∃ after gameAfter note,
      findById (joinGame now dateText store playerId gameId).1.players playerId = some after ∧
      after.portfolio.holdings = [] ∧ after.portfolio.cash = game.startingAmount ∧
      after.portfolioHistory = [] ∧ after.transactions = [] ∧ after.active = true ∧
      after.notifications = player.notifications ++ [note] ∧
      findGameById (joinGame now dateText store playerId gameId).1.games gameId =
        some gameAfter ∧
      gameAfter.players = game.players ++ [playerId] ∧
      gameAfter.startingAmount = game.startingAmount ∧ gameAfter.endTime = game.endTime := by
  by_cases hact : player.active = true
  · simp [joinGame, hplayer, hact] at hok
  · by_cases hend : game.endTime ≤ now
    · simp [joinGame, hplayer, hgame, hact, hend] at hok
    · have hres : joinGame now dateText store playerId gameId =
          ({ players := save store.players
               { player with
                 portfolio := { holdings := [], cash := game.startingAmount }
                 transactions := []
                 portfolioHistory := []
                 active := true
                 notifications := player.notifications ++
                   ["You have joined a game ending on: " ++ dateText game.endTime] }
             games := saveGame store.games { game with players := game.players ++ [playerId] } },
            { status := 200, body := .message "Player joined the game successfully" }) := by
        simp [joinGame, hplayer, hgame, hact, hend]
      rw [hres]
      exact ⟨_, _, "You have joined a game ending on: " ++ dateText game.endTime,
        findById_save hplayer rfl, rfl, rfl, rfl, rfl, rfl, rfl,
        findGameById_saveGame hgame rfl, rfl, rfl, rfl⟩

/-- C18 at a player with cash 250, 5 shares and no game, who joins the game `g1` (starting
amount 1000) at time 50. -/
theorem joinGame_resets_player_witness :
    findById lobbyStore.players "p1" = some (idleTrader 250 [⟨"SYM", 5, 100⟩]) ∧
    findGameById lobbyStore.games "g1" = some (gameOf ["p2"]) ∧
    (joinGame 50 toString lobbyStore "p1" "g1").2.status = 200 ∧
    ∃ after gameAfter note,
      findById (joinGame 50 toString lobbyStore "p1" "g1").1.players "p1" = some after ∧
      after.portfolio.holdings = [] ∧ after.portfolio.cash = (gameOf ["p2"]).startingAmount ∧
      after.portfolioHistory = [] ∧ after.transactions = [] ∧ after.active = true ∧
      after.notifications = (idleTrader 250 [⟨"SYM", 5, 100⟩]).notifications ++ [note] ∧
      findGameById (joinGame 50 toString lobbyStore "p1" "g1").1.games "g1" = some gameAfter ∧
      gameAfter.players = (gameOf ["p2"]).players ++ ["p1"] ∧
      gameAfter.startingAmount = (gameOf ["p2"]).startingAmount ∧
      gameAfter.endTime = (gameOf ["p2"]).endTime := by
  have hplayer : findById lobbyStore.players "p1" = some (idleTrader 250 [⟨"SYM", 5, 100⟩]) := by
    simp [findById, lobbyStore, idleTrader, trader]
  have hgame : findGameById lobbyStore.games "g1" = some (gameOf ["p2"]) := by
    simp [findGameById, lobbyStore, gameOf]
  have hok : (joinGame 50 toString lobbyStore "p1" "g1").2.status = 200 := by
    simp only [joinGame, hplayer, hgame]
    simp [idleTrader, gameOf]
  exact ⟨hplayer, hgame, hok,
    joinGame_resets_player 50 toString lobbyStore "p1" "g1" _ _ hplayer hgame hok⟩

/-- C19: `joinGame` answers, and returns the store it was given, with 404 "Player not found"
when the player id does not resolve; else with 400 "Player is already in a game" when the
player is active; else with 404 "Game not found" when the game id does not resolve; else
with 400 "Game has already ended" exactly when `game.endTime <= now`; in the remaining case it
answers 200. -/
theorem joinGame_checks (now : Nat) (dateText : Nat → String) (store : Store)
    (playerId gameId : String) :
    (findById store.players playerId = none →
      joinGame now dateText store playerId gameId =
        (store, { status := 404, body := .error "Player not found" })) ∧
    (∀ player, findById store.players playerId = some player → player.active = true →
      joinGame now dateText store playerId gameId =
        (store, { status := 400, body := .error "Player is already in a game" })) ∧
    (∀ player, findById store.players playerId = some player → player.active = false →
      findGameById store.games gameId = none →
      joinGame now dateText store playerId gameId =
        (store, { status := 404, body := .error "Game not found" })) ∧
    (∀ player game, findById store.players playerId = some player → player.active = false →
      findGameById store.games gameId = some game →
      ((joinGame now dateText store playerId gameId).2 =
          { status := 400, body := .error "Game has already ended" } ↔ game.endTime ≤ now) ∧
      (game.endTime ≤ now → (joinGame now dateText store playerId gameId).1 = store) ∧
      (now < game.endTime → (joinGame now dateText store playerId gameId).2 =
        { status := 200, body := .message "Player joined the game successfully" })) := by
  refine ⟨?_, ?_, ?_, ?_⟩
  · intro hnone
    simp [joinGame, hnone]
  · intro player hplayer hact
    simp [joinGame, hplayer, hact]
  · intro player hplayer hidle hnone
    simp [joinGame, hplayer, hidle, hnone]
  · intro player game hplayer hidle hgame
    by_cases hend : game.endTime ≤ now
    · simp [joinGame, hplayer, hidle, hgame, hend]
    · simp [joinGame, hplayer, hidle, hgame, hend, not_le.mp hend]

/-- C19 at a store with an idle player `p1`, an active player `p2` and a game `g1` ending at
time 100: one call for each of the five outcomes. -/
theorem joinGame_checks_witness :
    joinGame 50 toString lobbyStore "ghost" "g1" =
      (lobbyStore, { status := 404, body := .error "Player not found" }) ∧
    joinGame 50 toString lobbyStore "p2" "g1" =
      (lobbyStore, { status := 400, body := .error "Player is already in a game" }) ∧
    joinGame 50 toString lobbyStore "p1" "nogame" =
      (lobbyStore, { status := 404, body := .error "Game not found" }) ∧
    (joinGame 100 toString lobbyStore "p1" "g1").2 =
      { status := 400, body := .error "Game has already ended" } ∧
    (joinGame 100 toString lobbyStore "p1" "g1").1 = lobbyStore ∧
    (joinGame 99 toString lobbyStore "p1" "g1").2 =
      { status := 200, body := .message "Player joined the game successfully" } := by
  have hghost : findById lobbyStore.players "ghost" = none := by
    simp +decide [findById, lobbyStore, idleTrader, trader, participant, List.find?]
  have hp1 : findById lobbyStore.players "p1" = some (idleTrader 250 [⟨"SYM", 5, 100⟩]) := by
    simp [findById, lobbyStore, idleTrader, trader]
  have hp2 : findById lobbyStore.players "p2" = some (participant "p2" "bob" 1800) := by
    simp +decide [findById, lobbyStore, idleTrader, trader, participant, List.find?]
  have hgame : findGameById lobbyStore.games "g1" = some (gameOf ["p2"]) := by
    simp [findGameById, lobbyStore, gameOf]
  have hnogame : findGameById lobbyStore.games "nogame" = none := by
    simp +decide [findGameById, lobbyStore, gameOf, List.find?]
  have hlast := (joinGame_checks 100 toString lobbyStore "p1" "g1").2.2.2 _ _ hp1 rfl hgame
  have hopen := (joinGame_checks 99 toString lobbyStore "p1" "g1").2.2.2 _ _ hp1 rfl hgame
  exact ⟨(joinGame_checks 50 toString lobbyStore "ghost" "g1").1 hghost,
    (joinGame_checks 50 toString lobbyStore "p2" "g1").2.1 _ hp2 rfl,
    (joinGame_checks 50 toString lobbyStore "p1" "nogame").2.2.1 _ hp1 rfl hnogame,
    hlast.1.mpr (by simp [gameOf]), hlast.2.1 (by simp [gameOf]),
    hopen.2.2 (by simp [gameOf])⟩

/-! ## Editing a game -/

/-- C20: for a stored game, once the current time has reached `startingTime`,
`editStartingTime` and `editStartingAmount` answer 400 and return the store they were given,
whatever is requested; before `startingTime`, `editStartingAmount` answers 200 and the stored
game is the old one with `startingAmount` set to the requested value. -/
theorem edit_only_before_start (now : Nat) (store : Store) (gameId : String) (game : Game)
    (hgame : findGameById store.games gameId = some game) :
    (game.startingTime ≤ now →
      (∀ startingTime, editStartingTime now store gameId startingTime =
        (store,
          { status := 400
            body := .error "Cannot edit starting time because the game has already started" })) ∧
      (∀ startingAmount, editStartingAmount now store gameId startingAmount =
        (store,
          { status := 400
            body := .error "Cannot edit starting amount because the game has already started" }))) ∧
    (now < game.startingTime → ∀ startingAmount,
      (editStartingAmount now store gameId startingAmount).2 =
        { status := 200
          body := .game "Starting amount updated successfully"
            { game with startingAmount := startingAmount } } ∧
      (editStartingAmount now store gameId startingAmount).1.players = store.players ∧
      findGameById (editStartingAmount now store gameId startingAmount).1.games gameId =
        some { game with startingAmount := startingAmount }) := by
  constructor
  · intro hstarted
    exact ⟨fun _ => by simp [editStartingTime, hgame, hstarted],
      fun _ => by simp [editStartingAmount, hgame, hstarted]⟩
  · intro hbefore startingAmount
    have hnot : ¬ game.startingTime ≤ now := not_le.mpr hbefore
    simp only [editStartingAmount, hgame, hnot, if_false]
    exact ⟨trivial, trivial, findGameById_saveGame hgame rfl⟩

/-- C20 at the game `g1`, which starts at time 10: at time 10 both edits are refused and the
store is kept; at time 9 the starting amount is set to 1500. -/
theorem edit_only_before_start_witness :
    findGameById leagueStore.games "g1" = some (gameOf ["p1", "p2", "p3"]) ∧
    (gameOf ["p1", "p2", "p3"]).startingTime ≤ 10 ∧
    9 < (gameOf ["p1", "p2", "p3"]).startingTime ∧
    editStartingTime 10 leagueStore "g1" (some 50) =
      (leagueStore,
        { status := 400
          body := .error "Cannot edit starting time because the game has already started" }) ∧
    editStartingAmount 10 leagueStore "g1" 1500 =
      (leagueStore,
        { status := 400
          body := .error "Cannot edit starting amount because the game has already started" }) ∧
    findGameById (editStartingAmount 9 leagueStore "g1" 1500).1.games "g1" =
      some { gameOf ["p1", "p2", "p3"] with startingAmount := 1500 } := by
  have hgame : findGameById leagueStore.games "g1" = some (gameOf ["p1", "p2", "p3"]) := by
    simp [findGameById, leagueStore, gameOf]
  have hstarted : (gameOf ["p1", "p2", "p3"]).startingTime ≤ 10 := by simp [gameOf]
  have hbefore : 9 < (gameOf ["p1", "p2", "p3"]).startingTime := by simp [gameOf]
  have hlate := (edit_only_before_start 10 leagueStore "g1" _ hgame).1 hstarted
  have hearly := (edit_only_before_start 9 leagueStore "g1" _ hgame).2 hbefore 1500
  exact ⟨hgame, hstarted, hbefore, hlate.1 (some 50), hlate.2 1500, hearly.2.2⟩

/-! ## Editing the starting time -/

/-- C21: for a stored game that has not started, `editStartingTime` with a requested time
that is not after the current time answers 400 "New starting time cannot be in the past" and
returns the store it was given; with a later requested time it answers 200 and the stored game
is the old one with `startingTime` set to the requested time. -/
theorem editStartingTime_before_start (now : Nat) (store : Store) (gameId : String)
    (game : Game) (newStartingTime : Nat)
    (hgame : findGameById store.games gameId = some game)
    (hbefore : now < game.startingTime) :
    (newStartingTime ≤ now →
      editStartingTime now store gameId (some newStartingTime) =
        (store, { status := 400, body := .error "New starting time cannot be in the past" })) ∧
    (now < newStartingTime →
      (editStartingTime now store gameId (some newStartingTime)).2 =
        { status := 200
          body := .game "Starting time updated successfully"
            { game with startingTime := newStartingTime } } ∧
      (editStartingTime now store gameId (some newStartingTime)).1.players = store.players ∧
      findGameById (editStartingTime now store gameId (some newStartingTime)).1.games gameId =
        some { game with startingTime := newStartingTime }) := by
  have hnot : ¬ game.startingTime ≤ now := not_le.mpr hbefore
  constructor
  · intro hpast
    simp [editStartingTime, hgame, hnot, hpast]
  · intro hfuture
    have hnot2 : ¬ newStartingTime ≤ now := not_le.mpr hfuture
    simp only [editStartingTime, hgame, hnot, hnot2, if_false]
    exact ⟨trivial, trivial, findGameById_saveGame hgame rfl⟩

/-- C21 at the game `g1`, which starts at time 10, edited at time 5: the requested time 5 is
refused and the store kept; the requested time 6 is stored. -/
theorem editStartingTime_before_start_witness :
    findGameById leagueStore.games "g1" = some (gameOf ["p1", "p2", "p3"]) ∧
    5 < (gameOf ["p1", "p2", "p3"]).startingTime ∧
    editStartingTime 5 leagueStore "g1" (some 5) =
      (leagueStore, { status := 400, body := .error "New starting time cannot be in the past" }) ∧
    (editStartingTime 5 leagueStore "g1" (some 6)).2.status = 200 ∧
    findGameById (editStartingTime 5 leagueStore "g1" (some 6)).1.games "g1" =
      some { gameOf ["p1", "p2", "p3"] with startingTime := 6 } := by
  have hgame : findGameById leagueStore.games "g1" = some (gameOf ["p1", "p2", "p3"]) := by
    simp [findGameById, leagueStore, gameOf]
  have hbefore : 5 < (gameOf ["p1", "p2", "p3"]).startingTime := by simp [gameOf]
  have hpast := (editStartingTime_before_start 5 leagueStore "g1" _ 5 hgame hbefore).1
    (le_refl 5)
  have hfuture := (editStartingTime_before_start 5 leagueStore "g1" _ 6 hgame hbefore).2
    (by norm_num)
  exact ⟨hgame, hbefore, hpast, by rw [hfuture.1], hfuture.2.2⟩

/-! ## Behaviour of the trades beyond the specification -/

/-- C25: there are an active player and a negative quantity for which `buyStock` succeeds,
the stored cash is greater than before and a holding of negative quantity is stored. -/
theorem buyStock_negative_quantity :
    ∃ (env : Env) (db : List Player) (playerId stockSymbol : String) (quantity : ℚ)
      (player after : Player),
      quantity < 0 ∧ findById db playerId = some player ∧ player.active = true ∧
      (buyStock env db playerId stockSymbol quantity).2.success = true ∧
      findById (buyStock env db playerId stockSymbol quantity).1 playerId = some after ∧
      player.portfolio.cash < after.portfolio.cash ∧
      ∃ h ∈ after.portfolio.holdings, h.stockSymbol = stockSymbol ∧ h.quantity < 0 := by
  have hprice : (flatMarket 100).quote "SYM" = .ok 100 := rfl
  have hfind : findById [trader 1000 []] "p1" = some (trader 1000 []) := by
    simp [findById, trader]
  have hok : (buyStock (flatMarket 100) [trader 1000 []] "p1" "SYM" (-5)).2.success = true := by
    norm_num [buyStock, flatMarket, findById, trader]
  refine ⟨flatMarket 100, [trader 1000 []], "p1", "SYM", -5, trader 1000 [], _, by norm_num,
    hfind, rfl, hok, buyStock_player_after hprice hfind hok, ?_, ?_⟩
  · norm_num [buyCommit, trader]
  · exact ⟨⟨"SYM", -5, 100⟩, by simp [buyCommit, buyHoldings, holdingIndex, findIndex, trader],
      rfl, by norm_num⟩

/-- C28: if no two holdings of the player have the same symbol, then after a successful
`buyStock` the stored holdings have pairwise different symbols and the old symbols appear
among them in their old order, and after a successful `sellStock` the stored holdings have
pairwise different symbols, which appear in the old holdings in the same order. -/
theorem trade_holdings_keyed (env : Env) (db : List Player) (playerId stockSymbol : String)
    (quantity p : ℚ) (player : Player)
    (hprice : env.quote stockSymbol = .ok p) (hfind : findById db playerId = some player)
    (hkeyed : (player.portfolio.holdings.map (fun h => h.stockSymbol)).Nodup) :
    ((buyStock env db playerId stockSymbol quantity).2.success = true →
      ∃ after, findById (buyStock env db playerId stockSymbol quantity).1 playerId =
          some after ∧
        (after.portfolio.holdings.map (fun h => h.stockSymbol)).Nodup ∧
        (player.portfolio.holdings.map (fun h => h.stockSymbol)).Sublist
          (after.portfolio.holdings.map (fun h => h.stockSymbol))) ∧
    ((sellStock env db playerId stockSymbol quantity).2.success = true →
      ∃ after, findById (sellStock env db playerId stockSymbol quantity).1 playerId =
          some after ∧
        (after.portfolio.holdings.map (fun h => h.stockSymbol)).Nodup ∧
        (after.portfolio.holdings.map (fun h => h.stockSymbol)).Sublist
          (player.portfolio.holdings.map (fun h => h.stockSymbol))) := by
  constructor
  · intro hok
    refine ⟨_, buyStock_player_after hprice hfind hok, ?_⟩
    show ((buyHoldings player.portfolio.holdings stockSymbol quantity p).map _).Nodup ∧
      List.Sublist _ ((buyHoldings player.portfolio.holdings stockSymbol quantity p).map _)
    rcases holdings_split_or_absent player.portfolio.holdings stockSymbol with
      habs | ⟨l1, h, l2, hl, hh, hl1⟩
    · rw [buyHoldings_of_absent _ _ _ _ habs]
      simp only [List.map_append, List.map_cons, List.map_nil]
      refine ⟨?_, List.sublist_append_left _ _⟩
      rw [List.nodup_append]
      refine ⟨hkeyed, List.nodup_singleton _, ?_⟩
      intro a ha hb
      rw [List.mem_singleton] at hb
      obtain ⟨y, hy, rfl⟩ := List.mem_map.mp ha
      exact habs y hy hb
    · rw [hl] at hkeyed ⊢
      rw [buyHoldings_of_first l1 l2 h stockSymbol quantity p hh hl1]
      simp only [List.map_append, List.map_cons] at hkeyed ⊢
      exact ⟨hkeyed, List.Sublist.refl _⟩
  · intro hok
    obtain ⟨l1, h, l2, hl, _, _, _, hafter⟩ := sellStock_player_after hprice hfind hok
    refine ⟨_, hafter, ?_⟩
    show ((sellHoldings player.portfolio.holdings l1.length quantity).map _).Nodup ∧
      List.Sublist ((sellHoldings player.portfolio.holdings l1.length quantity).map _) _
    rw [hl] at hkeyed ⊢
    rw [sellHoldings_at_length]
    split_ifs with hzero
    · have hsub : List.Sublist ((l1 ++ l2).map (fun h => h.stockSymbol))
          ((l1 ++ h :: l2).map (fun h => h.stockSymbol)) := by
        simp only [List.map_append, List.map_cons]
        exact List.Sublist.append_left (List.sublist_cons_self _ _) _
      exact ⟨hkeyed.sublist hsub, hsub⟩
    · simp only [List.map_append, List.map_cons] at hkeyed ⊢
      exact ⟨hkeyed, List.Sublist.refl _⟩

/-- C28 at a player holding `ABC` and `SYM`, for a buy of 5 and for a sell of 5 shares of
`SYM`, both successful. -/
theorem trade_holdings_keyed_witness :
    (flatMarket 100).quote "SYM" = .ok 100 ∧
    findById [trader 1000 [⟨"ABC", 2, 50⟩, ⟨"SYM", 5, 100⟩]] "p1" =
      some (trader 1000 [⟨"ABC", 2, 50⟩, ⟨"SYM", 5, 100⟩]) ∧
    ((trader 1000 [⟨"ABC", 2, 50⟩, ⟨"SYM", 5, 100⟩]).portfolio.holdings.map
      (fun h => h.stockSymbol)).Nodup ∧
    (∃ after, findById (buyStock (flatMarket 100)
        [trader 1000 [⟨"ABC", 2, 50⟩, ⟨"SYM", 5, 100⟩]] "p1" "SYM" 5).1 "p1" = some after ∧
      (after.portfolio.holdings.map (fun h => h.stockSymbol)).Nodup ∧
      (["ABC", "SYM"]).Sublist (after.portfolio.holdings.map (fun h => h.stockSymbol))) ∧
    (∃ after, findById (sellStock (flatMarket 100)
        [trader 1000 [⟨"ABC", 2, 50⟩, ⟨"SYM", 5, 100⟩]] "p1" "SYM" 5).1 "p1" = some after ∧
      (after.portfolio.holdings.map (fun h => h.stockSymbol)).Nodup ∧
      (after.portfolio.holdings.map (fun h => h.stockSymbol)).Sublist ["ABC", "SYM"]) := by
  have hprice : (flatMarket 100).quote "SYM" = .ok 100 := rfl
  have hfind : findById [trader 1000 [⟨"ABC", 2, 50⟩, ⟨"SYM", 5, 100⟩]] "p1" =
      some (trader 1000 [⟨"ABC", 2, 50⟩, ⟨"SYM", 5, 100⟩]) := by
    simp [findById, trader]
  have hkeyed : ((trader 1000 [⟨"ABC", 2, 50⟩, ⟨"SYM", 5, 100⟩]).portfolio.holdings.map
      (fun h => h.stockSymbol)).Nodup := by
    simp +decide [trader]
  have hbuy : (buyStock (flatMarket 100) [trader 1000 [⟨"ABC", 2, 50⟩, ⟨"SYM", 5, 100⟩]] "p1"
      "SYM" 5).2.success = true := by
    norm_num [buyStock, flatMarket, findById, trader]
  have hsell : (sellStock (flatMarket 100) [trader 1000 [⟨"ABC", 2, 50⟩, ⟨"SYM", 5, 100⟩]] "p1"
      "SYM" 5).2.success = true := by
    simp +decide [sellStock, flatMarket, findById, trader, holdingIndex, findIndex]
  have h := trade_holdings_keyed (flatMarket 100)
    [trader 1000 [⟨"ABC", 2, 50⟩, ⟨"SYM", 5, 100⟩]] "p1" "SYM" 5 100
    (trader 1000 [⟨"ABC", 2, 50⟩, ⟨"SYM", 5, 100⟩]) hprice hfind hkeyed
  exact ⟨hprice, hfind, hkeyed, h.1 hbuy, h.2 hsell⟩

/-! ## A game without players -/

/-- C29: for a stored game that has ended and whose `players` list is empty, `declareWinner`
answers 500 "Internal Server Error" and returns the store it was given: no winner is set and
nothing is saved. -/
theorem declareWinner_without_players (now : Nat) (store : Store) (gameId : String)
    (game : Game) (hgame : findGameById store.games gameId = some game)
    (hended : game.endTime ≤ now) (hempty : game.players = []) :
    declareWinner now store gameId =
      (store, { status := 500, body := .error "Internal Server Error" }) := by
  have hnot : ¬ now < game.endTime := not_lt.mpr hended
  simp [declareWinner, hgame, hnot, hempty, populate, scanWinner, playerPortfolioValues]

/-- C29 at the game `g1` of `desertedStore`, which ended at time 100 and has no players. -/
theorem declareWinner_without_players_witness :
    findGameById desertedStore.games "g1" = some (gameOf []) ∧
    (gameOf []).endTime ≤ 200 ∧ (gameOf []).players = [] ∧
    declareWinner 200 desertedStore "g1" =
      (desertedStore, { status := 500, body := .error "Internal Server Error" }) := by
  have hgame : findGameById desertedStore.games "g1" = some (gameOf []) := by
    simp [findGameById, desertedStore, gameOf]
  have hended : (gameOf []).endTime ≤ 200 := by simp [gameOf]
  exact ⟨hgame, hended, rfl,
    declareWinner_without_players 200 desertedStore "g1" (gameOf []) hgame hended rfl⟩

/-! ## The active flag -/

theorem findById_map (f : Player → Player) (hf : ∀ p, (f p)._id = p._id) (db : List Player)
    (playerId : String) : findById (db.map f) playerId = (findById db playerId).map f := by
  induction db with
  | nil => simp [findById]
  | cons a as ih =>
    simp only [findById, List.map_cons, List.find?_cons, hf] at ih ⊢
    cases hc : (a._id == playerId) with
    | true => simp
    | false => simpa using ih

theorem findById_save_eq (db : List Player) (x : Player) (playerId : String) :
    findById (save db x) playerId =
      (findById db playerId).map (fun p => if p._id == x._id then x else p) := by
  apply findById_map
  intro p
  by_cases hp : p._id = x._id
  · simp [hp]
  · simp [hp]

theorem activeIn_save {players : List Player} {games games1 : List Game} {playerId : String}
    (x : Player) (hx : x.active = true)
    (h : ActiveIn { players := players, games := games } playerId) :
    ActiveIn { players := save players x, games := games1 } playerId := by
  obtain ⟨p, hp, hact⟩ := h
  refine ⟨if p._id == x._id then x else p, ?_, ?_⟩
  · show findById (save players x) playerId = _
    rw [findById_save_eq]
    simp only [] at hp
    rw [hp]
    rfl
  · split_ifs
    · exact hx
    · exact hact

theorem step_keeps_active (dateText : Nat → String) (store : Store) (op : Op)
    (playerId : String) (h : ActiveIn store playerId) :
    ActiveIn (step dateText store op) playerId := by
  obtain ⟨players, games⟩ := store
  cases op with
  | signUp newId username hashedPassword email =>
    obtain ⟨p, hp, hact⟩ := h
    simp only [step, signUp]
    split_ifs
    · exact ⟨p, hp, hact⟩
    · refine ⟨p, ?_, hact⟩
      simp only [findById] at hp ⊢
      rw [List.find?_append, hp]
      rfl
  | joinGame now pid gid =>
    simp only [step, joinGame]
    cases hf : findById players pid with
    | none => exact h
    | some player =>
      simp only []
      split_ifs
      · exact h
      · cases hg : findGameById games gid with
        | none => exact h
        | some game =>
          simp only []
          split_ifs
          · exact h
          · exact activeIn_save _ rfl h
  | buyStock env pid sym q =>
    simp only [step, buyStock]
    cases hq : env.quote sym with
    | error m => exact h
    | ok price =>
      simp only []
      cases hf : findById players pid with
      | none => exact h
      | some player =>
        simp only []
        by_cases hact : player.active = true
        · simp only [hact, Bool.not_true, Bool.false_eq_true, if_false]
          split_ifs
          · exact h
          · exact activeIn_save _ hact h
        · simp only [hact, Bool.not_false, if_true]
          simpa using h
  | sellStock env pid sym q =>
    simp only [step, sellStock]
    cases hq : env.quote sym with
    | error m => exact h
    | ok price =>
      simp only []
      cases hf : findById players pid with
      | none => exact h
      | some player =>
        simp only []
        by_cases hact : player.active = true
        · simp only [hact, Bool.not_true, Bool.false_eq_true, if_false]
          cases hidx : holdingIndex player.portfolio.holdings sym with
          | none => exact h
          | some i =>
            simp only []
            cases hget : player.portfolio.holdings[i]? with
            | none => exact h
            | some x =>
              simp only []
              split_ifs
              · exact h
              · exact activeIn_save _ hact h
        · simp only [hact, Bool.not_false, if_true]
          simpa using h
  | createGame newId text startingTime endTime startingAmount =>
    obtain ⟨p, hp, hact⟩ := h
    simp only [step, createGame]
    refine ⟨{ p with notifications := p.notifications ++
      ["A new game has been created with starting time: " ++ text] }, ?_, hact⟩
    have hmap := findById_map (fun player : Player =>
      { player with notifications := player.notifications ++
        ["A new game has been created with starting time: " ++ text] }) (fun _ => rfl)
      players playerId
    simp only [] at hp
    rw [hp] at hmap
    exact hmap
  | declareWinner now gid =>
    simp only [step, declareWinner]
    cases hg : findGameById games gid with
    | none => exact h
    | some game =>
      simp only []
      split_ifs
      · exact h
      · cases hs : (scanWinner (playerPortfolioValues (populate players game.players))).winner with
        | none => exact h
        | some w =>
          obtain ⟨a, b⟩ := w
          obtain ⟨p, hp, hact⟩ := h
          exact ⟨p, hp, hact⟩

theorem run_keeps_active (dateText : Nat → String) (ops : List Op) (store : Store)
    (playerId : String) (h : ActiveIn store playerId) :
    ActiveIn (run dateText store ops) playerId := by
  induction ops generalizing store with
  | nil => exact h
  | cons op ops ih => exact ih _ (step_keeps_active dateText store op playerId h)

theorem joinGame_activeIn (now : Nat) (dateText : Nat → String) (store : Store)
    (playerId gameId : String)
    (hok : (joinGame now dateText store playerId gameId).2.status = 200) :
    ActiveIn (joinGame now dateText store playerId gameId).1 playerId := by
  cases hf : findById store.players playerId with
  | none => simp [joinGame, hf] at hok
  | some player =>
    by_cases hact : player.active = true
    · simp [joinGame, hf, hact] at hok
    · cases hg : findGameById store.games gameId with
      | none => simp [joinGame, hf, hact, hg] at hok
      | some game =>
        by_cases hend : game.endTime ≤ now
        · simp [joinGame, hf, hact, hg, hend] at hok
        · simp only [joinGame, hf, hact, hg, hend, if_false]
          exact ⟨_, findById_save hf rfl, rfl⟩

theorem joinGame_of_activeIn (now : Nat) (dateText : Nat → String) (store : Store)
    (playerId gameId : String) (h : ActiveIn store playerId) :
    joinGame now dateText store playerId gameId =
      (store, { status := 400, body := .error "Player is already in a game" }) := by
  obtain ⟨p, hp, hact⟩ := h
  simp [joinGame, hp, hact]

/-- C30: after a successful `joinGame` of a player, and then any sequence of `signUp`,
`joinGame`, `buyStock`, `sellStock`, `createGame` and `declareWinner` calls, the player is
stored with `active = true`, and a `joinGame` of that player, at any time and for any game,
answers 400 "Player is already in a game" and returns the store it was given. -/
theorem joinGame_rejected_ever_after (dateText : Nat → String) (store : Store)
    (now : Nat) (playerId gameId : String) (ops : List Op) (later : Nat) (otherGame : String)
    (hjoined : (joinGame now dateText store playerId gameId).2.status = 200) :
    (∃ p, findById (run dateText (joinGame now dateText store playerId gameId).1 ops).players
        playerId = some p ∧ p.active = true) ∧
    joinGame later dateText (run dateText (joinGame now dateText store playerId gameId).1 ops)
        playerId otherGame =
      (run dateText (joinGame now dateText store playerId gameId).1 ops,
        { status := 400, body := .error "Player is already in a game" }) := by
  have h := run_keeps_active dateText ops _ playerId
    (joinGame_activeIn now dateText store playerId gameId hjoined)
  exact ⟨h, joinGame_of_activeIn later dateText _ playerId otherGame h⟩

/-- C30 at the player `p1` who joins the game `g1` at time 50: after a trade, the declaration
of the winner, a new game `g2` and a registration, joining `g2` at time 350 is refused. -/
theorem joinGame_rejected_ever_after_witness :
    (joinGame 50 toString lobbyStore "p1" "g1").2.status = 200 ∧
    (∃ p, findById (run toString (joinGame 50 toString lobbyStore "p1" "g1").1
        laterOps).players "p1" = some p ∧ p.active = true) ∧
    joinGame 350 toString (run toString (joinGame 50 toString lobbyStore "p1" "g1").1 laterOps)
        "p1" "g2" =
      (run toString (joinGame 50 toString lobbyStore "p1" "g1").1 laterOps,
        { status := 400, body := .error "Player is already in a game" }) := by
  have hplayer : findById lobbyStore.players "p1" = some (idleTrader 250 [⟨"SYM", 5, 100⟩]) := by
    simp [findById, lobbyStore, idleTrader, trader]
  have hgame : findGameById lobbyStore.games "g1" = some (gameOf ["p2"]) := by
    simp [findGameById, lobbyStore, gameOf]
  have hok : (joinGame 50 toString lobbyStore "p1" "g1").2.status = 200 := by
    simp only [joinGame, hplayer, hgame]
    simp [idleTrader, gameOf]
  have h := joinGame_rejected_ever_after toString lobbyStore 50 "p1" "g1" laterOps 350 "g2" hok
  exact ⟨hok, h.1, h.2⟩

/-! ## The quote source -/

theorem getStockPrice_quoteReply (stockSymbol text : String) :
    getStockPrice stockSymbol (quoteReply text) =
      if text = "" then .rejected ("Stock data not available for symbol " ++ stockSymbol)
      else .resolved (parseFloat text) := by
  by_cases ht : text = ""
  · simp [getStockPrice, quoteReply, JsonValue.property, JsonValue.truthy, ht]
  · simp [getStockPrice, quoteReply, JsonValue.property, JsonValue.truthy, ht, parseFloatOf]

theorem parseFloat_sample : parseFloat "172.62" = .finite 172.62 := by
  have h : scan "172.62".toList = .decimal false 17262 2 0 := by decide
  simp only [parseFloat, h, Scanned.toNumber]
  norm_num

/-- C22, the claim at a failing input: the body of a 200 reply has a `Global Quote` object
with a `05. price` field, which is the empty string, and `getStockPrice` rejects with "Stock
data not available" instead of resolving with the parsed value. -/
theorem getStockPrice_empty_price :
    (quoteReply "").err = none ∧ (quoteReply "").statusCode = 200 ∧
    ((quoteReply "").data.property "Global Quote").bind
      (fun quote => quote.property "05. price") = some (.string "") ∧
    getStockPrice "IBM" (quoteReply "") =
      .rejected "Stock data not available for symbol IBM" := by
  refine ⟨rfl, rfl, ?_, ?_⟩
  · simp [quoteReply, JsonValue.property]
  · rw [getStockPrice_quoteReply]
    simp

/-- C22 as amended: `getStockPrice` rejects with the transport error when there is one and
with "Failed to fetch stock data" when the status is not 200; for a 200 reply with a body
other than `null` it resolves with `parseFloat` of the `05. price` of `Global Quote` when both
are present and truthy, and rejects with "Stock data not available" in every other case. -/
theorem getStockPrice_outcome (stockSymbol : String) (reply : Reply) :
    (∀ message, reply.err = some message →
      getStockPrice stockSymbol reply = .rejected message) ∧
    (reply.err = none → reply.statusCode ≠ 200 →
      getStockPrice stockSymbol reply =
        .rejected ("Failed to fetch stock data for symbol " ++ stockSymbol)) ∧
    (reply.err = none → reply.statusCode = 200 → reply.data ≠ .null →
      (∀ quote price, reply.data.property "Global Quote" = some quote → quote.truthy = true →
        quote.property "05. price" = some price → price.truthy = true →
        getStockPrice stockSymbol reply = .resolved (parseFloatOf price)) ∧
      ((∀ quote price, reply.data.property "Global Quote" = some quote →
          quote.property "05. price" = some price → quote.truthy = false ∨ price.truthy = false) →
        getStockPrice stockSymbol reply =
          .rejected ("Stock data not available for symbol " ++ stockSymbol))) := by
  refine ⟨?_, ?_, ?_⟩
  · intro message herr
    simp [getStockPrice, herr]
  · intro herr hstatus
    simp [getStockPrice, herr, hstatus]
  · intro herr hstatus hdata
    have hstep : getStockPrice stockSymbol reply =
        match reply.data.property "Global Quote" with
        | none => .rejected ("Stock data not available for symbol " ++ stockSymbol)
        | some stockData =>
          if !stockData.truthy then
            .rejected ("Stock data not available for symbol " ++ stockSymbol)
          else
            match stockData.property "05. price" with
            | none => .rejected ("Stock data not available for symbol " ++ stockSymbol)
            | some price =>
              if !price.truthy then
                .rejected ("Stock data not available for symbol " ++ stockSymbol)
              else .resolved (parseFloatOf price) := by
      simp only [getStockPrice, herr, hstatus]
      cases hd : reply.data with
      | null => exact absurd hd hdata
      | _ => simp
    rw [hstep]
    constructor
    · intro quote price hquote hqt hprice hpt
      simp [hquote, hqt, hprice, hpt]
    · intro hnone
      cases hquote : reply.data.property "Global Quote" with
      | none => rfl
      | some quote =>
        by_cases hqt : quote.truthy = true
        · cases hprice : quote.property "05. price" with
          | none => simp [hqt, hprice]
          | some price =>
            rcases hnone quote price hquote hprice with h | h
            · simp [h] at hqt
            · simp [hqt, hprice, h]
        · simp [hqt]

/-- C22 as amended, at the replies of the tests: the price text 172.62 resolves with 172.62,
the status 500 and a transport error reject, and a `Global Quote` without a price rejects with
"Stock data not available". -/
theorem getStockPrice_outcome_witness :
    getStockPrice "AAPL" (quoteReply "172.62") = .resolved (.finite 172.62) ∧
    getStockPrice "IBM" { err := none, statusCode := 500, data := .string "Internal Server Error" } =
      .rejected "Failed to fetch stock data for symbol IBM" ∧
    getStockPrice "INVALID" { err := some "connection refused", statusCode := 0, data := .null } =
      .rejected "connection refused" ∧
    getStockPrice "XYZ"
        { err := none, statusCode := 200, data := .object [("Global Quote", .object [])] } =
      .rejected "Stock data not available for symbol XYZ" := by
  refine ⟨?_, ?_, ?_, ?_⟩
  · have h := ((getStockPrice_outcome "AAPL" (quoteReply "172.62")).2.2 rfl rfl
      (by simp [quoteReply])).1 (.object [("05. price", .string "172.62")]) (.string "172.62")
      (by simp [quoteReply, JsonValue.property]) rfl (by simp [JsonValue.property])
      (by simp +decide [JsonValue.truthy])
    rw [h]
    simp only [parseFloatOf, parseFloat_sample]
  · exact (getStockPrice_outcome "IBM" _).2.1 rfl (by decide)
  · exact (getStockPrice_outcome "INVALID" _).1 _ rfl
  · refine ((getStockPrice_outcome "XYZ" _).2.2 rfl rfl (by simp)).2 ?_
    intro quote price hquote hprice
    simp [JsonValue.property] at hquote
    subst hquote
    simp [JsonValue.property] at hprice

/-- C23, the claim at failing inputs: for 200 replies whose `05. price` is the text 0.0000,
the text -1.5 and the text abc, `getStockPrice` resolves with 0, with -3/2 and with `NaN`,
none of which is a number greater than zero. -/
theorem getStockPrice_not_positive :
    getStockPrice "IBM" (quoteReply "0.0000") = .resolved (.finite 0) ∧
    ¬ (JsNumber.finite 0).positive ∧
    getStockPrice "IBM" (quoteReply "-1.5") = .resolved (.finite (-3 / 2)) ∧
    ¬ (JsNumber.finite (-3 / 2)).positive ∧
    getStockPrice "IBM" (quoteReply "abc") = .resolved .nan ∧ ¬ JsNumber.nan.positive := by
  have h0 : scan "0.0000".toList = .decimal false 0 4 0 := by decide
  have h1 : scan "-1.5".toList = .decimal true 15 1 0 := by decide
  have h2 : scan "abc".toList = .notNumber := by decide
  refine ⟨?_, by simp [JsNumber.positive], ?_, by norm_num [JsNumber.positive], ?_,
    by simp [JsNumber.positive]⟩
  · rw [getStockPrice_quoteReply, if_neg (by decide)]
    simp only [parseFloat, h0, Scanned.toNumber]
    norm_num
  · rw [getStockPrice_quoteReply, if_neg (by decide)]
    simp only [parseFloat, h1, Scanned.toNumber]
    norm_num
  · rw [getStockPrice_quoteReply, if_neg (by decide)]
    simp only [parseFloat, h2, Scanned.toNumber]

/-- C23 as amended: whatever `getStockPrice` resolves with, the reply had no transport
error and status 200, and the price is `parseFloat` of a truthy `05. price` field of its
`Global Quote`; the price is positive exactly when that field parses to a positive number. -/
theorem getStockPrice_resolved (stockSymbol : String) (reply : Reply) (price : JsNumber)
    (h : getStockPrice stockSymbol reply = .resolved price) :
    reply.err = none ∧ reply.statusCode = 200 ∧
    ∃ quote field, reply.data.property "Global Quote" = some quote ∧
      quote.property "05. price" = some field ∧ field.truthy = true ∧
      price = parseFloatOf field ∧ (price.positive ↔ (parseFloatOf field).positive) := by
  cases herr : reply.err with
  | some message => simp [getStockPrice, herr] at h
  | none =>
    by_cases hstatus : reply.statusCode = 200
    · refine ⟨rfl, hstatus, ?_⟩
      simp only [getStockPrice, herr, hstatus] at h
      cases hd : reply.data with
      | null => simp [hd] at h
      | bool b => simp [hd, JsonValue.property] at h
      | number n => simp [hd, JsonValue.property] at h
      | string n => simp [hd, JsonValue.property] at h
      | array n => simp [hd, JsonValue.property] at h
      | object fields =>
        rw [hd] at h
        simp only [ne_eq, not_true_eq_false, if_false] at h
        cases hquote : (JsonValue.object fields).property "Global Quote" with
        | none => simp [hquote] at h
        | some quote =>
          simp only [hquote] at h
          by_cases hqt : quote.truthy = true
          · cases hprice : quote.property "05. price" with
            | none => simp [hqt, hprice] at h
            | some field =>
              by_cases hft : field.truthy = true
              · simp [hqt, hprice, hft] at h
                exact ⟨quote, field, rfl, hprice, hft, h.symm, by rw [h]⟩
              · simp [hqt, hprice, hft] at h
          · simp [hqt] at h
    · simp [getStockPrice, herr, hstatus] at h

/-- C23 as amended, at the reply of the test: the price text 172.62 resolves with 172.62,
which is positive. -/
theorem getStockPrice_resolved_witness :
    getStockPrice "AAPL" (quoteReply "172.62") = .resolved (.finite 172.62) ∧
    (JsNumber.finite 172.62).positive ∧
    (quoteReply "172.62").err = none ∧ (quoteReply "172.62").statusCode = 200 ∧
    ∃ quote field, (quoteReply "172.62").data.property "Global Quote" = some quote ∧
      quote.property "05. price" = some field ∧ field.truthy = true ∧
      JsNumber.finite 172.62 = parseFloatOf field ∧
      ((JsNumber.finite 172.62).positive ↔ (parseFloatOf field).positive) := by
  have hres : getStockPrice "AAPL" (quoteReply "172.62") = .resolved (.finite 172.62) := by
    rw [getStockPrice_quoteReply, if_neg (by decide), parseFloat_sample]
  have h := getStockPrice_resolved "AAPL" (quoteReply "172.62") (.finite 172.62) hres
  exact ⟨hres, by norm_num [JsNumber.positive], h.1, h.2.1, h.2.2⟩

end TradingServer
